import Mathlib

/-!
# SourceEntry (chrome/browser/resources/net_internals/source_entry.js)

A shallow embedding of the net-internals `SourceEntry` class and proofs about
its activity flag, its error flag, its entry list, its derived description and
its times.  The file also embeds `ProxyView.prototype.onSourceEntriesUpdated`
(proxy_view.js), the functions `addCommas` and `Plotter.prototype.updateCursor_`
(plotter.js), `rebuildAppList` (items_list.js) and
`HostIt2MeDispatcher.prototype.initAndConnect` (host_it2me_dispatcher.js).

Conventions of the embedding
* a JavaScript value that may be `undefined` is an `Option`;
* a `TypeError` raised while a method runs is recorded in `Outcome.threw`
  together with the fields of the object at that point (assignments made before
  the exception stay visible on the object);
* an entry of `entries_` is referred to by `EntryRef`: its position in the list
  and the event stored there.  Every `update` receives a new event object, so two
  references denote the same object exactly when their positions agree.
-/

namespace NetInternals

/-! ## Constants supplied by the browser -/

/-- Members of `EventPhase`. -/
inductive EventPhase where
  | PHASE_NONE
  | PHASE_BEGIN
  | PHASE_END
  deriving DecidableEq, Repr

/-- Members of `EventType` named in source_entry.js; every other member of the
enumeration is `OTHER code`. -/
inductive EventType where
  | REQUEST_ALIVE
  | HTTP_CACHE_OPEN_ENTRY
  | FILE_STREAM_OPEN
  | DOWNLOAD_FILE_RENAMED
  | DOWNLOAD_FILE_OPENED
  | DOWNLOAD_ITEM_ACTIVE
  | SOCKET_POOL_CONNECT_JOB
  | UDP_CONNECT
  | URL_REQUEST_BLOCKED_ON_DELEGATE
  | IPV6_PROBE_RUNNING
  | SOCKET_ALIVE
  | OTHER (code : Nat)
  deriving DecidableEq, Repr

/-- Members of `EventSourceType` named in source_entry.js; every other member
of the enumeration is `OTHER code`. -/
inductive EventSourceType where
  | NONE
  | URL_REQUEST
  | SOCKET_STREAM
  | HTTP_STREAM_JOB
  | CONNECT_JOB
  | HOST_RESOLVER_IMPL_REQUEST
  | HOST_RESOLVER_IMPL_JOB
  | HOST_RESOLVER_IMPL_PROC_TASK
  | DISK_CACHE_ENTRY
  | MEMORY_CACHE_ENTRY
  | SPDY_SESSION
  | HTTP_PIPELINED_CONNECTION
  | SOCKET
  | UDP_SOCKET
  | ASYNC_HOST_RESOLVER_REQUEST
  | DNS_TRANSACTION
  | DOWNLOAD
  | FILESTREAM
  | IPV6_PROBE_JOB
  | OTHER (code : Nat)
  deriving DecidableEq, Repr

/-! ## Log events -/

/-- The value of `params.source_dependency`. -/
structure SourceDependency where
  id : Int
  deriving DecidableEq, Repr

/-- The `params` object of a log event, restricted to the keys that
source_entry.js reads.  A key that is absent reads as `undefined` (`none`). -/
structure Params where
  net_error : Option Int := none
  url : Option String := none
  group_name : Option String := none
  host : Option String := none
  key : Option String := none
  proxy : Option String := none
  host_and_port : Option String := none
  source_dependency : Option SourceDependency := none
  address : Option String := none
  hostname : Option String := none
  new_filename : Option String := none
  file_name : Option String := none
  ipv6_supported : Option Bool := none
  deriving DecidableEq, Repr

/-- The `source` object of a log event. -/
structure Source where
  type : EventSourceType
  id : Int
  deriving DecidableEq, Repr

/-- A log event; `params` is optional. -/
structure LogEvent where
  type : EventType
  phase : EventPhase
  time : Int
  source : Source
  params : Option Params
  deriving DecidableEq, Repr

/-- The event with its `params` removed; two events that differ only in their
`params` have the same image. -/
def LogEvent.withoutParams (e : LogEvent) : LogEvent :=
  { e with params := none }

/-- A reference to an element of `entries_`: `this.entries_[index]`. -/
structure EntryRef where
  index : Nat
  event : LogEvent
  deriving DecidableEq, Repr

/-- The expression `this.entries_[i]`, `undefined` when `i` is out of range. -/
def entryAt (entries : List LogEvent) (i : Nat) : Option EntryRef :=
  (entries[i]?).map (fun e => ⟨i, e⟩)

/-! ## The SourceEntry object -/

/-- Fields of a `SourceEntry` object. -/
structure SourceEntry where
  maxPreviousSourceId_ : Int
  entries_ : List LogEvent
  description_ : Option String
  isError_ : Bool
  isInactive_ : Bool
  deriving DecidableEq, Repr

/-- Result of running a method on a `SourceEntry`: it returned normally, or it
raised a `TypeError` (a property was read from `undefined`); in both cases `s`
holds the fields of the object at that point. -/
inductive Outcome where
  | returned (s : SourceEntry)
  | threw (s : SourceEntry)
  deriving DecidableEq, Repr

/-- The object after the method has run. -/
def Outcome.state : Outcome → SourceEntry
  | .returned s => s
  | .threw s => s

/-- Whether the method raised. -/
def Outcome.raised : Outcome → Bool
  | .returned _ => false
  | .threw _ => true

/-- The singleton `SourceTracker.getInstance()`, whose code is outside
source_entry.js: the two lookups that `updateDescription_` calls on it are
taken as parameters. -/
structure SourceTracker where
  getSourceEntry : Int → Option SourceEntry
  getDescription : Int → Option String

/-- The globals read by source_entry.js: the constant `NetError.FAILED`, the
table `EventTypeNames` and the source tracker. -/
structure Env where
  NetError_FAILED : Int
  EventTypeNames : EventType → Option String
  tracker : SourceTracker

namespace SourceEntry

/-- Loop of `findLogEntryByType_`: `i` is the index of the head of the list. -/
def findLogEntryByTypeFrom (type : EventType) : List LogEvent → Nat → Option EntryRef
  | [], _ => none
  | e :: rest, i =>
    if e.type = type then some ⟨i, e⟩ else findLogEntryByTypeFrom type rest (i + 1)

/-- The method `findLogEntryByType_`: the first entry with the specified type,
or `undefined`. -/
def findLogEntryByType_ (entries : List LogEvent) (type : EventType) : Option EntryRef :=
  findLogEntryByTypeFrom type entries 0

/-- Loop of `findLastLogEntryStartByType_`: the index runs from the end of the
list down to `i`, the index of the head, so a match later in the list is
returned before the head is looked at. -/
def findLastLogEntryStartByTypeFrom (type : EventType) : List LogEvent → Nat → Option EntryRef
  | [], _ => none
  | e :: rest, i =>
    match findLastLogEntryStartByTypeFrom type rest (i + 1) with
    | some r => some r
    | none =>
      if e.type = type ∧ e.phase ≠ EventPhase.PHASE_END then some ⟨i, e⟩ else none

/-- The method `findLastLogEntryStartByType_`: the last entry with the
specified type whose phase is not `PHASE_END`, or `undefined`. -/
def findLastLogEntryStartByType_ (entries : List LogEvent) (type : EventType) :
    Option EntryRef :=
  findLastLogEntryStartByTypeFrom type entries 0

/-- The `while` loop of `getStartEntry_`; `fuel` bounds the number of
iterations (the caller passes `entries.length`). -/
def skipBlockedOnDelegate (entries : List LogEvent) : Nat → Nat → Nat
  | 0, start_index => start_index
  | fuel + 1, start_index =>
    if start_index + 1 < entries.length ∧
        (entries[start_index]?).map (fun e => e.type) =
          some EventType.URL_REQUEST_BLOCKED_ON_DELEGATE then
      skipBlockedOnDelegate entries fuel (start_index + 1)
    else start_index

/-- The last part of `getStartEntry_` (from `if (this.entries_.length >= 2)` to
the final `return this.entries_[0]`), reached when the lookups for FILESTREAM
and DOWNLOAD sources returned nothing. -/
def getStartEntryByPosition (entries : List LogEvent) : Option EntryRef :=
  match entries with
  | e0 :: e1 :: _ =>
    if e0.type = EventType.SOCKET_POOL_CONNECT_JOB ∨ e1.type = EventType.UDP_CONNECT then
      entryAt entries 1
    else if e0.type = EventType.REQUEST_ALIVE then
      entryAt entries (skipBlockedOnDelegate entries entries.length 1)
    else if e1.type = EventType.IPV6_PROBE_RUNNING then
      entryAt entries 1
    else entryAt entries 0
  | _ => entryAt entries 0

/-- The method `getStartEntry_`. -/
def getStartEntry_ (entries : List LogEvent) : Option EntryRef :=
  match entries with
  | [] => none
  | e0 :: _ =>
    (if e0.source.type = EventSourceType.FILESTREAM then
        findLogEntryByType_ entries EventType.FILE_STREAM_OPEN
      else none) <|>
    (if e0.source.type = EventSourceType.DOWNLOAD then
        findLastLogEntryStartByType_ entries EventType.DOWNLOAD_FILE_RENAMED <|>
        findLogEntryByType_ entries EventType.DOWNLOAD_FILE_OPENED <|>
        findLogEntryByType_ entries EventType.DOWNLOAD_ITEM_ACTIVE
      else none) <|>
    getStartEntryByPosition entries

/-- The method `getLogEntries`. -/
def getLogEntries (self : SourceEntry) : List LogEvent := self.entries_

/-- The method `getDescription`. -/
def getDescription (self : SourceEntry) : Option String := self.description_

/-- The method `getSourceType`; `none` when `this.entries_[0]` is `undefined`
(the property access raises). -/
def getSourceType (self : SourceEntry) : Option EventSourceType :=
  (self.entries_[0]?).map (fun e => e.source.type)

/-- The method `getSourceId`; `none` when `this.entries_[0]` is `undefined`. -/
def getSourceId (self : SourceEntry) : Option Int :=
  (self.entries_[0]?).map (fun e => e.source.id)

/-- The method `getMaxPreviousEntrySourceId`. -/
def getMaxPreviousEntrySourceId (self : SourceEntry) : Int := self.maxPreviousSourceId_

/-- The method `isInactive`. -/
def isInactive (self : SourceEntry) : Bool := self.isInactive_

/-- The method `isError`. -/
def isError (self : SourceEntry) : Bool := self.isError_

/-- String concatenation with a value that may be `undefined`: JavaScript
converts `undefined` to the text "undefined". -/
def jsToString : Option String → String
  | some s => s
  | none => "undefined"

/-- The last statement of `updateDescription_`: an `undefined` description is
replaced by the empty string. -/
def normalizeDescription (self : SourceEntry) : SourceEntry :=
  if self.description_ = none then { self with description_ := some "" } else self

/-- The `UDP_SOCKET` case of the switch in `updateDescription_`, entered with
`e.params` equal to `params`. -/
def describeUdpSocket (env : Env) (self : SourceEntry) (params : Params) : Outcome :=
  match params.address with
  | none => .returned (normalizeDescription self)
  | some address =>
    let self := { self with description_ := some address }
    match self.entries_[0]? with
    | none => .threw self
    | some first =>
      if first.type = EventType.SOCKET_ALIVE then
        match first.params with
        | none => .threw self
        | some firstParams =>
          match firstParams.source_dependency with
          | none => .returned (normalizeDescription self)
          | some dependency =>
            match env.tracker.getSourceEntry dependency.id with
            | none => .returned (normalizeDescription self)
            | some parent =>
              match parent.getSourceType with
              | none => .threw self
              | some parentType =>
                if parentType = EventSourceType.HOST_RESOLVER_IMPL_JOB then
                  match parent.getDescription with
                  | none => .threw self
                  | some parentDescription =>
                    if parentDescription.length > 0 then
                      .returned (normalizeDescription
                        { self with
                          description_ := some (address ++ (" [" ++ parentDescription ++ "]")) })
                    else .returned (normalizeDescription self)
                else .returned (normalizeDescription self)
      else .returned (normalizeDescription self)

/-- The method `updateDescription_`. -/
def updateDescription_ (env : Env) (self : SourceEntry) : Outcome :=
  let startEntry := getStartEntry_ self.entries_
  let self := { self with description_ := some "" }
  match startEntry with
  | none => .returned self
  | some ref =>
    let e := ref.event
    if e.source.type = EventSourceType.NONE then
      .returned { self with description_ := env.EventTypeNames e.type }
    else
      match e.params with
      | none => .returned self
      | some params =>
        match e.source.type with
        | .URL_REQUEST | .SOCKET_STREAM | .HTTP_STREAM_JOB =>
          .returned (normalizeDescription { self with description_ := params.url })
        | .CONNECT_JOB =>
          .returned (normalizeDescription { self with description_ := params.group_name })
        | .HOST_RESOLVER_IMPL_REQUEST | .HOST_RESOLVER_IMPL_JOB
        | .HOST_RESOLVER_IMPL_PROC_TASK =>
          .returned (normalizeDescription { self with description_ := params.host })
        | .DISK_CACHE_ENTRY | .MEMORY_CACHE_ENTRY =>
          .returned (normalizeDescription { self with description_ := params.key })
        | .SPDY_SESSION =>
          match params.host with
          | some host =>
            if host ≠ "" then
              .returned (normalizeDescription
                { self with
                  description_ := some (host ++ " (" ++ jsToString params.proxy ++ ")") })
            else .returned (normalizeDescription self)
          | none => .returned (normalizeDescription self)
        | .HTTP_PIPELINED_CONNECTION =>
          match params.host_and_port with
          | some host_and_port =>
            if host_and_port ≠ "" then
              .returned (normalizeDescription { self with description_ := some host_and_port })
            else .returned (normalizeDescription self)
          | none => .returned (normalizeDescription self)
        | .SOCKET =>
          match params.source_dependency with
          | some dependency =>
            .returned (normalizeDescription
              { self with description_ := env.tracker.getDescription dependency.id })
          | none => .returned (normalizeDescription self)
        | .UDP_SOCKET => describeUdpSocket env self params
        | .ASYNC_HOST_RESOLVER_REQUEST | .DNS_TRANSACTION =>
          .returned (normalizeDescription { self with description_ := params.hostname })
        | .DOWNLOAD =>
          match e.type with
          | .DOWNLOAD_FILE_RENAMED =>
            .returned (normalizeDescription { self with description_ := params.new_filename })
          | .DOWNLOAD_FILE_OPENED =>
            .returned (normalizeDescription { self with description_ := params.file_name })
          | .DOWNLOAD_ITEM_ACTIVE =>
            .returned (normalizeDescription { self with description_ := params.file_name })
          | _ => .returned (normalizeDescription self)
        | .FILESTREAM =>
          .returned (normalizeDescription { self with description_ := params.file_name })
        | .IPV6_PROBE_JOB =>
          if e.type = EventType.IPV6_PROBE_RUNNING ∧ e.phase = EventPhase.PHASE_END then
            .returned (normalizeDescription
              { self with
                description_ :=
                  some (if params.ipv6_supported = some true then "IPv6 Supported"
                        else "IPv6 Not Supported") })
          else .returned (normalizeDescription self)
        | _ => .returned (normalizeDescription self)

/-- The first statement of `update`: the activity flag.  Reading
`this.entries_[0].type` raises when the list is empty. -/
def updateInactive (self : SourceEntry) (logEntry : LogEvent) : Outcome :=
  if self.isInactive_ = false ∧ logEntry.phase = EventPhase.PHASE_END then
    match self.entries_[0]? with
    | none => .threw self
    | some first =>
      if logEntry.type = first.type then .returned { self with isInactive_ := true }
      else .returned self
  else .returned self

/-- The second statement of `update`: the error flag. -/
def updateError (env : Env) (self : SourceEntry) (logEntry : LogEvent) : SourceEntry :=
  match logEntry.params with
  | none => self
  | some params =>
    match params.net_error with
    | none => self
    | some netErrorCode =>
      if netErrorCode ≠ 0 then
        if logEntry.type ≠ EventType.HTTP_CACHE_OPEN_ENTRY ∨
            netErrorCode ≠ env.NetError_FAILED then
          { self with isError_ := true }
        else self
      else self

/-- The method `update`. -/
def update (env : Env) (self : SourceEntry) (logEntry : LogEvent) : Outcome :=
  match updateInactive self logEntry with
  | .threw self => .threw self
  | .returned self =>
    let self := updateError env self logEntry
    let prevStartEntry := getStartEntry_ self.entries_
    let self := { self with entries_ := self.entries_ ++ [logEntry] }
    let curStartEntry := getStartEntry_ self.entries_
    if prevStartEntry.map (fun r => r.index) ≠ curStartEntry.map (fun r => r.index) then
      updateDescription_ env self
    else .returned self

/-- The constructor `SourceEntry(logEntry, maxPreviousSourceId)`. -/
def new (env : Env) (logEntry : LogEvent) (maxPreviousSourceId : Int) : Outcome :=
  let self : SourceEntry :=
    { maxPreviousSourceId_ := maxPreviousSourceId
      entries_ := []
      description_ := some ""
      isError_ := false
      isInactive_ := true }
  let self :=
    if logEntry.phase = EventPhase.PHASE_BEGIN then { self with isInactive_ := false } else self
  update env self logEntry

/-- Calls `update` with each event in turn on the same object. -/
def updateAll (env : Env) (self : SourceEntry) (events : List LogEvent) : SourceEntry :=
  events.foldl (fun s e => (update env s e).state) self

/-- The object obtained by constructing a `SourceEntry` from `firstEvent` and
then calling `update` with each of `events` in order. -/
def ofEvents (env : Env) (maxPreviousSourceId : Int) (firstEvent : LogEvent)
    (events : List LogEvent) : SourceEntry :=
  updateAll env (new env firstEvent maxPreviousSourceId).state events

/-! ## Example data -/

/-- Example globals: `NetError.FAILED` is -2, the type-name table knows
`REQUEST_ALIVE` and the member `OTHER 5`, and the source tracker holds no
entry. -/
def exampleEnv : Env where
  NetError_FAILED := -2
  EventTypeNames := fun t =>
    match t with
    | .REQUEST_ALIVE => some "REQUEST_ALIVE"
    | .OTHER 5 => some "NETWORK_IP_ADDRESSES_CHANGED"
    | _ => none
  tracker :=
    { getSourceEntry := fun _ => none
      getDescription := fun _ => some "" }

/-- Example event: the start of a connect job of a socket-pool source. -/
def connectJobBegin : LogEvent :=
  { type := .SOCKET_POOL_CONNECT_JOB, phase := .PHASE_BEGIN, time := 10,
    source := { type := .CONNECT_JOB, id := 7 },
    params := some { group_name := some "example.org:80" } }

/-- Example event: the end of the same connect job, with a net error. -/
def connectJobEndFailed : LogEvent :=
  { type := .SOCKET_POOL_CONNECT_JOB, phase := .PHASE_END, time := 25,
    source := { type := .CONNECT_JOB, id := 7 },
    params := some { net_error := some (-105) } }

/-- Example event: a second start of the connect job on the same source. -/
def connectJobBeginAgain : LogEvent :=
  { type := .SOCKET_POOL_CONNECT_JOB, phase := .PHASE_BEGIN, time := 30,
    source := { type := .CONNECT_JOB, id := 7 },
    params := none }

/-- Example event: a cache lookup that did not find the entry. -/
def cacheOpenEntryMiss : LogEvent :=
  { type := .HTTP_CACHE_OPEN_ENTRY, phase := .PHASE_END, time := 12,
    source := { type := .OTHER 0, id := 9 },
    params := some { net_error := some (-2) } }

/-- Example events of a DOWNLOAD source: the item becomes active (file A), the
file is opened (file B), a rename to C starts, a rename to D ends, and a rename
starts whose params carry no `new_filename`. -/
def downloadItemActive : LogEvent :=
  { type := .DOWNLOAD_ITEM_ACTIVE, phase := .PHASE_BEGIN, time := 1,
    source := { type := .DOWNLOAD, id := 4 },
    params := some { file_name := some "A" } }

/-- See `downloadItemActive`. -/
def downloadFileOpened : LogEvent :=
  { type := .DOWNLOAD_FILE_OPENED, phase := .PHASE_BEGIN, time := 2,
    source := { type := .DOWNLOAD, id := 4 },
    params := some { file_name := some "B" } }

/-- See `downloadItemActive`. -/
def downloadFileRenamedBegin : LogEvent :=
  { type := .DOWNLOAD_FILE_RENAMED, phase := .PHASE_BEGIN, time := 3,
    source := { type := .DOWNLOAD, id := 4 },
    params := some { new_filename := some "C" } }

/-- See `downloadItemActive`. -/
def downloadFileRenamedEnd : LogEvent :=
  { type := .DOWNLOAD_FILE_RENAMED, phase := .PHASE_END, time := 4,
    source := { type := .DOWNLOAD, id := 4 },
    params := some { new_filename := some "D" } }

/-- See `downloadItemActive`. -/
def downloadFileRenamedUnnamed : LogEvent :=
  { type := .DOWNLOAD_FILE_RENAMED, phase := .PHASE_BEGIN, time := 5,
    source := { type := .DOWNLOAD, id := 4 },
    params := some {} }

/-- Example events of a URL_REQUEST source: the request becomes alive, it is
blocked on the delegate, its job starts for the URL "http://x" (`OTHER 1` stands
for the event type of the job start), and an event of a further type (`OTHER 3`)
whose params hold no `url` key. -/
def requestAlive : LogEvent :=
  { type := .REQUEST_ALIVE, phase := .PHASE_BEGIN, time := 1,
    source := { type := .URL_REQUEST, id := 12 },
    params := none }

/-- See `requestAlive`. -/
def blockedOnDelegate : LogEvent :=
  { type := .URL_REQUEST_BLOCKED_ON_DELEGATE, phase := .PHASE_BEGIN, time := 2,
    source := { type := .URL_REQUEST, id := 12 },
    params := none }

/-- See `requestAlive`. -/
def urlRequestStartJob : LogEvent :=
  { type := .OTHER 1, phase := .PHASE_BEGIN, time := 3,
    source := { type := .URL_REQUEST, id := 12 },
    params := some { url := some "http://x" } }

/-- See `requestAlive`. -/
def urlRequestEventNoUrl : LogEvent :=
  { type := .OTHER 3, phase := .PHASE_BEGIN, time := 3,
    source := { type := .URL_REQUEST, id := 12 },
    params := some {} }

/-- Example events of a UDP_SOCKET source that depends on source 3: the socket
becomes alive, then connects to the address "8.8.8.8:53". -/
def socketAlive : LogEvent :=
  { type := .SOCKET_ALIVE, phase := .PHASE_BEGIN, time := 1,
    source := { type := .UDP_SOCKET, id := 20 },
    params := some { source_dependency := some { id := 3 } } }

/-- See `socketAlive`. -/
def udpConnect : LogEvent :=
  { type := .UDP_CONNECT, phase := .PHASE_BEGIN, time := 2,
    source := { type := .UDP_SOCKET, id := 20 },
    params := some { address := some "8.8.8.8:53" } }

/-- Example event of source 3, a host resolver job for "example.com". -/
def hostResolverJob : LogEvent :=
  { type := .OTHER 2, phase := .PHASE_BEGIN, time := 0,
    source := { type := .HOST_RESOLVER_IMPL_JOB, id := 3 },
    params := some { host := some "example.com" } }

/-- Example globals whose source tracker holds the host resolver job under
id 3. -/
def resolverEnv : Env where
  NetError_FAILED := -2
  EventTypeNames := fun _ => none
  tracker :=
    { getSourceEntry := fun id =>
        if id = 3 then some (ofEvents exampleEnv 0 hostResolverJob []) else none
      getDescription := fun _ => some "" }

/-- Example event with source type NONE (a global event). -/
def ipAddressesChanged : LogEvent :=
  { type := .OTHER 5, phase := .PHASE_NONE, time := 8,
    source := { type := .NONE, id := 0 },
    params := some { url := some "ignored" } }

/-! ## Times -/

/-- The collaborator `timeutil`, whose code is outside source_entry.js: the
value that `getCurrentTime()` returns at the call and the conversion
`convertTimeTicksToTime` are taken as parameters.  Times are integers. -/
structure TimeUtil where
  getCurrentTime : Int
  convertTimeTicksToTime : Int → Int

/-- The method `getEndTime`; `none` when `this.entries_[length - 1]` is
`undefined` (reading its `time` raises). -/
def getEndTime (timeutil : TimeUtil) (self : SourceEntry) : Option Int :=
  if self.isInactive_ = false then
    some timeutil.getCurrentTime
  else
    (self.entries_[self.entries_.length - 1]?).map
      (fun last => timeutil.convertTimeTicksToTime last.time)

/-- The method `getDuration`; `none` when a property is read from `undefined`. -/
def getDuration (timeutil : TimeUtil) (self : SourceEntry) : Option Int :=
  match self.entries_[0]? with
  | none => none
  | some first =>
    let startTime := timeutil.convertTimeTicksToTime first.time
    match getEndTime timeutil self with
    | none => none
    | some endTime => some (endTime - startTime)

/-! ## The source tracker -/

/-- Modelled from the spec: `SourceTracker.getDescription(id)`, whose code is
outside source_entry.js.  The spec asks that the lookup of a parent returns the
description of the registered entry, and that it tolerates a parent that does
not exist by returning the empty string or `undefined`, never failing. -/
def TrackerDescribesEntries (tracker : SourceTracker) : Prop :=
  ∀ id : Int,
    match tracker.getSourceEntry id with
    | some parent => tracker.getDescription id = parent.getDescription
    | none => tracker.getDescription id = none ∨ tracker.getDescription id = some ""

/-! ## Example data, continued -/

/-- Example state: the object in the middle of `update(connectJobBeginAgain)`
on the connect-job source, after the push and before `updateDescription_` is
called. -/
def connectJobMidUpdate : SourceEntry :=
  { ofEvents exampleEnv 0 connectJobBegin [] with
    entries_ := [connectJobBegin, connectJobBeginAgain] }

/-- Example event: a UDP socket becomes alive; the event carries no params. -/
def socketAliveNoParams : LogEvent :=
  { type := .SOCKET_ALIVE, phase := .PHASE_BEGIN, time := 1,
    source := { type := .UDP_SOCKET, id := 20 },
    params := none }

/-- Example event with source type NONE whose type (`OTHER 7`) has no entry in
the type-name table of `exampleEnv`. -/
def unnamedGlobalEvent : LogEvent :=
  { type := .OTHER 7, phase := .PHASE_NONE, time := 9,
    source := { type := .NONE, id := 0 },
    params := none }

/-- Example event of a SOCKET source that depends on source 3. -/
def socketOfResolver : LogEvent :=
  { type := .SOCKET_ALIVE, phase := .PHASE_BEGIN, time := 2,
    source := { type := .SOCKET, id := 21 },
    params := some { source_dependency := some { id := 3 } } }

/-- Example globals whose source tracker holds the host resolver job under id 3
and answers `getDescription` from that entry. -/
def socketEnv : Env where
  NetError_FAILED := -2
  EventTypeNames := fun _ => none
  tracker :=
    { getSourceEntry := fun id =>
        if id = 3 then some (ofEvents exampleEnv 0 hostResolverJob []) else none
      getDescription := fun id =>
        if id = 3 then (ofEvents exampleEnv 0 hostResolverJob []).getDescription
        else some "" }

/-- Example event of a SOCKET source that depends on source 99, which the
tracker of `socketEnv` does not hold. -/
def socketOfUnknownParent : LogEvent :=
  { type := .SOCKET_ALIVE, phase := .PHASE_BEGIN, time := 2,
    source := { type := .SOCKET, id := 22 },
    params := some { source_dependency := some { id := 99 } } }

/-- Example events of an IPV6_PROBE_JOB source: the job starts, then the probe
ends and reports support. -/
def ipv6ProbeJob : LogEvent :=
  { type := .OTHER 4, phase := .PHASE_BEGIN, time := 1,
    source := { type := .IPV6_PROBE_JOB, id := 30 },
    params := none }

/-- See `ipv6ProbeJob`. -/
def ipv6ProbeRunningEnd : LogEvent :=
  { type := .IPV6_PROBE_RUNNING, phase := .PHASE_END, time := 2,
    source := { type := .IPV6_PROBE_JOB, id := 30 },
    params := some { ipv6_supported := some true } }

/-- Example time collaborator: the current time is 1000 and ticks convert by
adding 500. -/
def exampleTimeUtil : TimeUtil where
  getCurrentTime := 1000
  convertTimeTicksToTime := fun ticks => ticks + 500

/-- Example events of a FILESTREAM source: the stream becomes alive (`OTHER 6`
stands for that event type), then the file "/tmp/log" is opened. -/
def fileStreamAlive : LogEvent :=
  { type := .OTHER 6, phase := .PHASE_BEGIN, time := 1,
    source := { type := .FILESTREAM, id := 40 },
    params := none }

/-- See `fileStreamAlive`. -/
def fileStreamOpen : LogEvent :=
  { type := .FILE_STREAM_OPEN, phase := .PHASE_BEGIN, time := 2,
    source := { type := .FILESTREAM, id := 40 },
    params := some { file_name := some "/tmp/log" } }

/-! ## Printing -/

/-- Value of a call of a method that has no `return` statement: `undefined`
when the call returns, or the call raised. -/
inductive VoidResult where
  | undefined
  | raised
  deriving DecidableEq, Repr

/-- The method `printAsText(parent)`.  It hands `entries_` and `parent` to
`printLogEntriesAsText`, whose code is outside source_entry.js, and has no
`return` statement, so a call evaluates to `undefined` unless
`printLogEntriesAsText` raises.  `parent` is `none` when the argument is
missing (`undefined`) and names the node otherwise; `printLogEntriesAsText
entries parent` says whether that function returns normally. -/
def printAsText (printLogEntriesAsText : List LogEvent → Option String → Bool)
    (self : SourceEntry) (parent : Option String) : VoidResult :=
  if printLogEntriesAsText self.entries_ parent then .undefined else .raised

end SourceEntry

/-! ## ProxyView (chrome/browser/resources/net_internals/proxy_view.js) -/

/-- The globals that `onSourceEntriesUpdated` reads and whose code is outside
src: the constant `LogSourceType.INIT_PROXY_RESOLVER`, a member of the
enumeration of source types, and the function `printLogEntriesAsText` that
`printAsText` calls (whether it returns normally for given entries and
parent). -/
structure ProxyGlobals where
  INIT_PROXY_RESOLVER : EventSourceType
  printLogEntriesAsText : List LogEvent → Option String → Bool

/-- State of a `ProxyView` that `onSourceEntriesUpdated` touches: the field
`latestProxySourceId_`, and the value last assigned to the `innerText` of the
element `proxy-view-resolver-log` (`none` when that value is `undefined`). -/
structure ProxyView where
  latestProxySourceId_ : Int
  proxyResolverLogText : Option String
  deriving DecidableEq, Repr

/-- Result of `onSourceEntriesUpdated`: it returned, or a call inside it
raised; `s` is the state of the view at that point. -/
inductive ProxyOutcome where
  | returned (s : ProxyView)
  | raised (s : ProxyView)
  deriving DecidableEq, Repr

/-- The view after the method has run. -/
def ProxyOutcome.state : ProxyOutcome → ProxyView
  | .returned s => s
  | .raised s => s

namespace ProxyView

/-- Body of the `for` loop of `onSourceEntriesUpdated`, for one element of
`sourceEntries`.  `printAsText()` is called without an argument. -/
def onSourceEntryUpdated (globals : ProxyGlobals) (self : ProxyView)
    (sourceEntry : SourceEntry) : ProxyOutcome :=
  match sourceEntry.getSourceType with
  | none => .raised self
  | some sourceType =>
    if sourceType ≠ globals.INIT_PROXY_RESOLVER then .returned self
    else
      match sourceEntry.getSourceId with
      | none => .raised self
      | some sourceId =>
        if self.latestProxySourceId_ > sourceId then .returned self
        else
          let self := { self with latestProxySourceId_ := sourceId }
          match sourceEntry.printAsText globals.printLogEntriesAsText none with
          | .raised => .raised self
          | .undefined => .returned { self with proxyResolverLogText := none }

/-- The method `onSourceEntriesUpdated`.  The loop index runs from the end of
the list down to 0, so the rest of the list is handled before its head; an
exception ends the loop. -/
def onSourceEntriesUpdated (globals : ProxyGlobals) (self : ProxyView) :
    List SourceEntry → ProxyOutcome
  | [] => .returned self
  | sourceEntry :: rest =>
    match onSourceEntriesUpdated globals self rest with
    | .raised s => .raised s
    | .returned s => onSourceEntryUpdated globals s sourceEntry

/-- The ids of the INIT_PROXY_RESOLVER entries of a list, in the order of the
list. -/
def initProxyResolverIds (globals : ProxyGlobals) (sourceEntries : List SourceEntry) :
    List Int :=
  sourceEntries.filterMap (fun sourceEntry =>
    if sourceEntry.getSourceType = some globals.INIT_PROXY_RESOLVER then
      sourceEntry.getSourceId
    else none)

/-- Example source entry: a proxy resolver initialisation with the given id
(`OTHER 11` stands for the source type INIT_PROXY_RESOLVER, `OTHER 1020` for the
type of its first event). -/
def proxyResolverEntry (id : Int) : SourceEntry :=
  SourceEntry.ofEvents SourceEntry.exampleEnv 0
    { type := .OTHER 1020, phase := .PHASE_BEGIN, time := 1,
      source := { type := .OTHER 11, id := id }, params := none } []

/-- Example globals in which `printLogEntriesAsText` returns normally. -/
def printingGlobals : ProxyGlobals where
  INIT_PROXY_RESOLVER := .OTHER 11
  printLogEntriesAsText := fun _ _ => true

/-- Example globals in which `printLogEntriesAsText` raises when its parent
argument is `undefined`. -/
def raisingGlobals : ProxyGlobals where
  INIT_PROXY_RESOLVER := .OTHER 11
  printLogEntriesAsText := fun _ parent => parent.isSome

/-- Example view whose element shows the text "old log". -/
def exampleView : ProxyView where
  latestProxySourceId_ := 0
  proxyResolverLogText := some "old log"

end ProxyView

end NetInternals

/-! ## addCommas (chrome/test/functional/perf/endure_graphs/js/plotter.js) -/

namespace Plotter

/-- The call `s.split('.')`: the pieces of `s` between the occurrences of the
separator; the head of the result is the piece that starts at the head of `s`. -/
def splitDot : List Char → List (List Char)
  | [] => [[]]
  | c :: cs =>
    if c = '.' then [] :: splitDot cs
    else (c :: (splitDot cs).headD []) :: (splitDot cs).tail

/-- A match of the regular expression `(\d+)(\d{3})` that starts at the head
of `s`: the groups `$1` and `$2` and the text after the match.  `\d+` is greedy,
so the match covers the whole run of digits at the head and `$2` is its last
three digits; there is a match exactly when that run has at least 4 digits. -/
def matchThreeDigitsHere (s : List Char) : Option (List Char × List Char × List Char) :=
  let run := s.takeWhile Char.isDigit
  if 4 ≤ run.length then
    some (run.take (run.length - 3), run.drop (run.length - 3), s.dropWhile Char.isDigit)
  else none

/-- The leftmost match of `reThreeDigits` in `s`: the text before the match,
`$1`, `$2` and the text after the match. -/
def execThreeDigits :
    List Char → Option (List Char × List Char × List Char × List Char)
  | [] => none
  | c :: cs =>
    match matchThreeDigitsHere (c :: cs) with
    | some (g1, g2, rest) => some ([], g1, g2, rest)
    | none =>
      (execThreeDigits cs).map (fun m => (c :: m.1, m.2.1, m.2.2.1, m.2.2.2))

/-- The call `integralPart.replace(reThreeDigits, '$1' + ',' + '$2')`: the
first match is replaced, the rest of the string is kept. -/
def replaceThreeDigits (s : List Char) : List Char :=
  match execThreeDigits s with
  | some (before, g1, g2, rest) => before ++ g1 ++ [','] ++ g2 ++ rest
  | none => s

/-- The `while` loop of `addCommas`; `fuel` bounds the number of iterations
(the caller passes the length of the integral part). -/
def addCommasLoop : Nat → List Char → List Char
  | 0, integralPart => integralPart
  | fuel + 1, integralPart =>
    if (execThreeDigits integralPart).isSome then
      addCommasLoop fuel (replaceThreeDigits integralPart)
    else integralPart

/-- The function `addCommas`, applied to the string form of its argument. -/
def addCommas (number : String) : String :=
  let numberParts := splitDot number.toList
  let integralPart := numberParts.headD []
  let fractionalPart := if numberParts.length > 1 then '.' :: numberParts.getD 1 [] else []
  String.mk (addCommasLoop integralPart.length integralPart ++ fractionalPart)

/-- Follows the words of the spec, on the digits read from the right: after
every group of three digits that is followed by a further digit comes a
comma. -/
def groupFromRight : List Char → List Char
  | a :: b :: c :: rest =>
    match rest with
    | [] => [a, b, c]
    | _ :: _ => a :: b :: c :: ',' :: groupFromRight rest
  | digits => digits

/-- Follows the words of the spec: the integral digits with a comma between
every group of three digits counted from the right. -/
def groupThousands (digits : List Char) : List Char :=
  (groupFromRight digits.reverse).reverse

/-- A text in which `reThreeDigits` cannot match across the boundary with a
preceding run of digits: it is empty or starts with a character that is not a
digit, and holds no match itself. -/
def NoMatchAfter (t : List Char) : Prop :=
  (∀ c ∈ t.head?, c.isDigit = false) ∧ execThreeDigits t = none

/-! ### updateCursor_ -/

/-- A value assigned to a style property of the cursor: a number followed by
"px", or a bare number.  Numbers are rationals. -/
inductive StyleValue where
  | px (n : ℚ)
  | number (n : ℚ)
  deriving DecidableEq, Repr

/-- The properties of `cursorDiv.style` that `updateCursor_` assigns. -/
structure CursorStyle where
  top : StyleValue
  height : StyleValue
  left : StyleValue
  width : StyleValue
  deriving DecidableEq, Repr

/-- The properties of `canvasElement_` that `updateCursor_` reads. -/
structure CanvasElement where
  offsetTop : ℚ
  offsetHeight : ℚ
  offsetLeft : ℚ
  deriving DecidableEq, Repr

/-- The fields of a `Plotter` that `updateCursor_` reads; a point of
`plotData_` is the pair of its x and y values. -/
structure PlotterFields where
  canvasElement_ : CanvasElement
  plotData_ : List (List (ℚ × ℚ))
  deriving DecidableEq, Repr

/-- The identifier that `updateCursor_` reads without declaring it, resolved
among the global variables of the page; `none` says that no global `left_point`
exists, and reading it raises a `ReferenceError`. -/
structure CursorGlobals where
  left_point : Option ℚ

/-- Result of `updateCursor_`: it returned, or it raised a `TypeError` (a
property read from `undefined`) or a `ReferenceError`; `style` is the style of
the cursor at that point. -/
inductive CursorOutcome where
  | returned (style : CursorStyle)
  | typeError (style : CursorStyle)
  | referenceError (style : CursorStyle)
  deriving DecidableEq, Repr

/-- The style of the cursor after the call. -/
def CursorOutcome.style : CursorOutcome → CursorStyle
  | .returned s => s
  | .typeError s => s
  | .referenceError s => s

/-- The value of `leftPoint` after the first `if` of `updateCursor_`, for the
line `this.plotData_[dataIndex]`; `none` when a point read is `undefined`. -/
def cursorLeftPoint (offsetLeft : ℚ) (xPixel : ℚ → ℚ) (dataLine : List (ℚ × ℚ))
    (currentIndex : Nat) : Option ℚ :=
  if currentIndex = 0 then
    (dataLine[0]?).map (fun point => offsetLeft + xPixel point.1)
  else
    match dataLine[currentIndex - 1]?, dataLine[currentIndex]? with
    | some previous, some current =>
      let left_x := offsetLeft + xPixel previous.1
      let curr_x := offsetLeft + xPixel current.1
      some ((left_x + curr_x) / 2)
    | _, _ => none

/-- The method `updateCursor_`; `xPixel` is the method of that name of
`coordinateSystem`. -/
def updateCursor_ (globals : CursorGlobals) (self : PlotterFields) (xPixel : ℚ → ℚ)
    (currentIndex : Nat) (cursorDiv : CursorStyle) (dataIndex : Nat) : CursorOutcome :=
  let c : CursorStyle :=
    { cursorDiv with
      top := .px self.canvasElement_.offsetTop
      height := .px self.canvasElement_.offsetHeight }
  match self.plotData_[dataIndex]? with
  | none => .typeError c
  | some dataLine =>
    match cursorLeftPoint self.canvasElement_.offsetLeft xPixel dataLine currentIndex with
    | none => .typeError c
    | some leftPoint =>
      let c := { c with left := .number leftPoint }
      if currentIndex + 1 = dataLine.length then
        match dataLine[currentIndex]? with
        | none => .typeError c
        | some current =>
          let curr_x := self.canvasElement_.offsetLeft + xPixel current.1
          match globals.left_point with
          | none => .referenceError c
          | some left_point => .returned { c with width := .number (curr_x - left_point) }
      else
        match dataLine[currentIndex + 1]?, dataLine[currentIndex]? with
        | some next, some current =>
          let next_x := self.canvasElement_.offsetLeft + xPixel next.1
          let curr_x := self.canvasElement_.offsetLeft + xPixel current.1
          .returned { c with width := .number ((next_x + curr_x) / 2 - leftPoint) }
        | _, _ => .typeError c

/-- Example plotter: a canvas at the offsets 10 (top) and 20 (left) of height
300, and one line with the points (0, 5) and (50, 7). -/
def examplePlotter : PlotterFields where
  canvasElement_ := { offsetTop := 10, offsetHeight := 300, offsetLeft := 20 }
  plotData_ := [[(0, 5), (50, 7)]]

/-- Example cursor style, as `VerticalMarker` creates it. -/
def exampleCursorStyle : CursorStyle where
  top := .px (-2)
  height := .px 0
  left := .px (-2)
  width := .px 0

end Plotter

/-! ## rebuildAppList (chrome/browser/resources/apps_debugger/js/items_list.js) -/

namespace AppsDevTool

/-- An element of `completeList`, restricted to the fields that
`rebuildAppList` reads. -/
structure Item where
  name : String
  isApp : Bool
  is_unpacked : Bool
  deriving DecidableEq, Repr

/-- The string methods that `rebuildAppList` calls, which are built into
JavaScript and taken as parameters.  `s.search(pattern)` compiles `pattern` as
a regular expression: it raises a `SyntaxError` when `isRegExp pattern` is
false, and otherwise returns `search s pattern`, the index of the first match
or -1. -/
structure StringMethods where
  toLowerCase : String → String
  isRegExp : String → Bool
  search : String → String → Int

/-- The five lists of the module. -/
structure Lists where
  completeList : List Item
  packedAppList : List Item
  unpackedAppList : List Item
  packedExtensionList : List Item
  unpackedExtensionList : List Item
  deriving DecidableEq, Repr

/-- Result of `rebuildAppList`: it returned, or `search` raised; `s` holds the
lists at that point. -/
inductive Outcome where
  | returned (s : Lists)
  | threw (s : Lists)
  deriving DecidableEq, Repr

/-- The lists after the call. -/
def Outcome.state : Outcome → Lists
  | .returned s => s
  | .threw s => s

/-- The condition of the first `if` of the loop body,
`filter && item.name.toLowerCase().search(filter.toLowerCase()) < 0`;
`none` when `search` raises. -/
def skipsItem (js : StringMethods) (filter : String) (item : Item) : Option Bool :=
  if filter ≠ "" then
    if js.isRegExp (js.toLowerCase filter) then
      some (decide (js.search (js.toLowerCase item.name) (js.toLowerCase filter) < 0))
    else none
  else some false

/-- The second `if` of the loop body: the item is pushed onto the list chosen
by its flags. -/
def pushItem (s : Lists) (item : Item) : Lists :=
  if item.isApp then
    if item.is_unpacked then { s with unpackedAppList := s.unpackedAppList ++ [item] }
    else { s with packedAppList := s.packedAppList ++ [item] }
  else
    if item.is_unpacked then
      { s with unpackedExtensionList := s.unpackedExtensionList ++ [item] }
    else { s with packedExtensionList := s.packedExtensionList ++ [item] }

/-- The `for` loop of `rebuildAppList` over the remaining items. -/
def rebuildAppListLoop (js : StringMethods) (filter : String) : List Item → Lists → Outcome
  | [], s => .returned s
  | item :: rest, s =>
    match skipsItem js filter item with
    | none => .threw s
    | some true => rebuildAppListLoop js filter rest s
    | some false => rebuildAppListLoop js filter rest (pushItem s item)

/-- The function `rebuildAppList`. -/
def rebuildAppList (js : StringMethods) (s : Lists) (filter : String) : Outcome :=
  rebuildAppListLoop js filter s.completeList
    { s with
      packedAppList := []
      unpackedAppList := []
      packedExtensionList := []
      unpackedExtensionList := [] }

/-- An item passes the filter when the filter is empty or the search for it in
the name of the item returns an index that is not negative. -/
def passesFilter (js : StringMethods) (filter : String) (item : Item) : Bool :=
  decide (filter = "") ||
    (js.isRegExp (js.toLowerCase filter) &&
      decide (0 ≤ js.search (js.toLowerCase item.name) (js.toLowerCase filter)))

/-- Example string methods: every pattern is a regular expression, and `search`
finds a pattern only in an equal string. -/
def exampleStringMethods : StringMethods where
  toLowerCase := fun s => s.toLower
  isRegExp := fun _ => true
  search := fun s pattern => if s = pattern then 0 else -1

/-- Example lists: one packed app, one unpacked extension. -/
def exampleLists : Lists where
  completeList :=
    [ { name := "Calc", isApp := true, is_unpacked := false },
      { name := "Dev", isApp := false, is_unpacked := true } ]
  packedAppList := []
  unpackedAppList := []
  packedExtensionList := []
  unpackedExtensionList := []

end AppsDevTool

/-! ## HostIt2MeDispatcher (remoting/webapp/host_it2me_dispatcher.js) -/

namespace Remoting

/-- A function passed as a callback, identified by its name. -/
structure Callback where
  name : String
  deriving DecidableEq, Repr

/-- The NPAPI plugin object, restricted to what `initAndConnect` reads and
writes: whether it has the own property `REQUESTED_ACCESS_CODE`, the properties
assigned to it, and the calls of its methods `localize` and `connect`. -/
structure HostPlugin where
  hasRequestedAccessCode : Bool
  xmppServerAddress : Option String
  xmppServerUseTls : Option Bool
  directoryBotJid : Option String
  onStateChanged : Option Callback
  onNatTraversalPolicyChanged : Option Callback
  logDebugInfo : Option Callback
  localizeCalls : Nat
  connectCalls : List (String × String)
  deriving DecidableEq, Repr

/-- The identifiers that host_it2me_dispatcher.js reads without declaring
them; they are resolved among the global variables of the page.  `none` says
that no such global exists, and reading the identifier raises a
`ReferenceError`. -/
structure Globals where
  onNatTraversalPolicyChanged : Option Callback
  logDebugInfo : Option Callback

/-- The arguments of `initAndConnect`; `createPluginCallback` is given by the
plugin object that it returns. -/
structure ConnectArguments where
  createPluginCallback : HostPlugin
  email : String
  authServiceWithToken : String
  onStateChanged : Callback
  onNatPolicyChanged : Callback
  xmppServerAddress : String
  xmppServerUseTls : Bool
  directoryBotJid : String
  onError : Callback
  deriving DecidableEq, Repr

/-- State of a `HostIt2MeDispatcher`: the field `npapiHost_`, the calls of
`connect` on `nativeMessagingHost_`, and the callbacks that the dispatcher has
invoked. -/
structure HostIt2MeDispatcher where
  npapiHost_ : Option HostPlugin
  nativeMessagingConnectCalls : List ConnectArguments
  invoked : List Callback
  deriving DecidableEq, Repr

/-- Result of a function of the dispatcher: it returned, or it raised a
`ReferenceError`; `s` is the state at that point. -/
inductive Outcome where
  | returned (s : HostIt2MeDispatcher)
  | referenceError (s : HostIt2MeDispatcher)
  deriving DecidableEq, Repr

/-- The state after the function has run. -/
def Outcome.state : Outcome → HostIt2MeDispatcher
  | .returned s => s
  | .referenceError s => s

/-- Whether the function raised. -/
def Outcome.raised : Outcome → Bool
  | .returned _ => false
  | .referenceError _ => true

/-- The inner function `onNativeMessagingStarted` of `initAndConnect`. -/
def onNativeMessagingStarted (self : HostIt2MeDispatcher) (args : ConnectArguments) :
    Outcome :=
  .returned
    { self with nativeMessagingConnectCalls := self.nativeMessagingConnectCalls ++ [args] }

/-- The inner function `onNativeMessagingFailed` of `initAndConnect`. -/
def onNativeMessagingFailed (globals : Globals) (self : HostIt2MeDispatcher)
    (args : ConnectArguments) : Outcome :=
  let plugin := args.createPluginCallback
  if plugin.hasRequestedAccessCode then
    let plugin :=
      { plugin with
        xmppServerAddress := some args.xmppServerAddress
        xmppServerUseTls := some args.xmppServerUseTls
        directoryBotJid := some args.directoryBotJid
        onStateChanged := some args.onStateChanged }
    match globals.onNatTraversalPolicyChanged with
    | none => .referenceError { self with npapiHost_ := some plugin }
    | some onNatTraversalPolicyChanged =>
      let plugin :=
        { plugin with onNatTraversalPolicyChanged := some onNatTraversalPolicyChanged }
      match globals.logDebugInfo with
      | none => .referenceError { self with npapiHost_ := some plugin }
      | some logDebugInfo =>
        let plugin :=
          { plugin with
            logDebugInfo := some logDebugInfo
            localizeCalls := plugin.localizeCalls + 1
            connectCalls := plugin.connectCalls ++ [(args.email, args.authServiceWithToken)] }
        .returned { self with npapiHost_ := some plugin }
  else
    .returned { self with npapiHost_ := some plugin, invoked := self.invoked ++ [args.onError] }

/-- The callback that `nativeMessagingHost_.initialize`, whose code is outside
this file, invokes. -/
inductive NativeMessagingStart where
  | started
  | failed
  | error
  deriving DecidableEq, Repr

/-- The method `initAndConnect`, for a given answer of
`nativeMessagingHost_.initialize`. -/
def initAndConnect (globals : Globals) (self : HostIt2MeDispatcher)
    (args : ConnectArguments) (start : NativeMessagingStart) : Outcome :=
  match start with
  | .started => onNativeMessagingStarted self args
  | .failed => onNativeMessagingFailed globals self args
  | .error => .returned { self with invoked := self.invoked ++ [args.onError] }

/-- Example plugin that has the property `REQUESTED_ACCESS_CODE`, as
`createPluginCallback` returns it. -/
def examplePlugin : HostPlugin where
  hasRequestedAccessCode := true
  xmppServerAddress := none
  xmppServerUseTls := none
  directoryBotJid := none
  onStateChanged := none
  onNatTraversalPolicyChanged := none
  logDebugInfo := none
  localizeCalls := 0
  connectCalls := []

/-- Example arguments of `initAndConnect`. -/
def exampleArguments : ConnectArguments where
  createPluginCallback := examplePlugin
  email := "user@example.com"
  authServiceWithToken := "oauth2:token"
  onStateChanged := { name := "onStateChanged" }
  onNatPolicyChanged := { name := "onNatPolicyChanged" }
  xmppServerAddress := "talk.example.com:5222"
  xmppServerUseTls := true
  directoryBotJid := "bot@example.com"
  onError := { name := "onError" }

/-- Example page without a global `onNatTraversalPolicyChanged` or
`logDebugInfo`. -/
def exampleGlobals : Globals where
  onNatTraversalPolicyChanged := none
  logDebugInfo := none

/-- Example dispatcher as its constructor leaves it. -/
def exampleDispatcher : HostIt2MeDispatcher where
  npapiHost_ := none
  nativeMessagingConnectCalls := []
  invoked := []

end Remoting

namespace NetInternals

namespace SourceEntry

/-! ## Frame lemmas: what the description update leaves alone -/

theorem normalizeDescription_eq (s : SourceEntry) :
    normalizeDescription s = { s with description_ := some (s.description_.getD "") } := by
  unfold normalizeDescription
  cases s with
  | mk m es d err ina => cases d <;> simp

theorem describeUdpSocket_frame (env : Env) (s : SourceEntry) (p : Params) :
    ∃ d, (describeUdpSocket env s p).state = { s with description_ := d } := by
  simp only [describeUdpSocket, normalizeDescription_eq]
  repeat' split
  all_goals exact ⟨_, rfl⟩

theorem updateDescription_frame (env : Env) (s : SourceEntry) :
    ∃ d, (updateDescription_ env s).state = { s with description_ := d } := by
  simp only [updateDescription_, normalizeDescription_eq]
  repeat' split
  all_goals first
    | exact ⟨_, rfl⟩
    | exact (describeUdpSocket_frame env _ _).imp (fun d hd => by rw [hd])

theorem updateDescription_entries (env : Env) (s : SourceEntry) :
    (updateDescription_ env s).state.entries_ = s.entries_ := by
  obtain ⟨d, hd⟩ := updateDescription_frame env s
  rw [hd]

theorem updateDescription_isError (env : Env) (s : SourceEntry) :
    (updateDescription_ env s).state.isError_ = s.isError_ := by
  obtain ⟨d, hd⟩ := updateDescription_frame env s
  rw [hd]

theorem updateDescription_isInactive (env : Env) (s : SourceEntry) :
    (updateDescription_ env s).state.isInactive_ = s.isInactive_ := by
  obtain ⟨d, hd⟩ := updateDescription_frame env s
  rw [hd]

theorem updateDescription_maxPreviousSourceId (env : Env) (s : SourceEntry) :
    (updateDescription_ env s).state.maxPreviousSourceId_ = s.maxPreviousSourceId_ := by
  obtain ⟨d, hd⟩ := updateDescription_frame env s
  rw [hd]

/-! ## The flags and the entry list after one `update` -/

theorem updateError_isError (env : Env) (s : SourceEntry) (e : LogEvent) :
    (updateError env s e).isError_ = true ↔
      (s.isError_ = true ∨
        ∃ params netError, e.params = some params ∧ params.net_error = some netError ∧
          netError ≠ 0 ∧
          ¬ (e.type = EventType.HTTP_CACHE_OPEN_ENTRY ∧ netError = env.NetError_FAILED)) := by
  unfold updateError
  cases hp : e.params with
  | none => simp
  | some params =>
    cases hn : params.net_error with
    | none => simp [hn]
    | some n =>
      by_cases h0 : n = 0
      · simp [hn, h0]
      · by_cases hc : e.type ≠ EventType.HTTP_CACHE_OPEN_ENTRY ∨ n ≠ env.NetError_FAILED
        · have hc2 : ¬ (e.type = EventType.HTTP_CACHE_OPEN_ENTRY ∧ n = env.NetError_FAILED) := by
            tauto
          simp [hn, h0, hc]
          tauto
        · have hc2 : e.type = EventType.HTTP_CACHE_OPEN_ENTRY ∧ n = env.NetError_FAILED := by
            tauto
          simp [hn, h0, hc2]

theorem updateError_frame (env : Env) (s : SourceEntry) (e : LogEvent) :
    updateError env s e = { s with isError_ := (updateError env s e).isError_ } := by
  unfold updateError
  repeat' split
  all_goals rfl

theorem updateInactive_cons (s : SourceEntry) (e first : LogEvent) (rest : List LogEvent)
    (h : s.entries_ = first :: rest) :
    updateInactive s e = .returned
      { s with isInactive_ :=
          s.isInactive_ || decide (e.phase = EventPhase.PHASE_END ∧ e.type = first.type) } := by
  unfold updateInactive
  cases hi : s.isInactive_ <;> by_cases hp : e.phase = EventPhase.PHASE_END <;>
    by_cases ht : e.type = first.type <;> simp [h, hi, hp, ht] <;>
    cases s <;> simp_all

theorem updateError_isError_congr (env : Env) (s t : SourceEntry) (e : LogEvent)
    (h : s.isError_ = t.isError_) :
    (updateError env s e).isError_ = (updateError env t e).isError_ := by
  unfold updateError
  repeat' split
  all_goals first
    | exact h
    | rfl

theorem updateInactive_frame (s : SourceEntry) (e : LogEvent) :
    (updateInactive s e).state =
      { s with isInactive_ := (updateInactive s e).state.isInactive_ } := by
  unfold updateInactive
  repeat' split
  all_goals rfl

theorem updateInactive_threw (s s1 : SourceEntry) (e : LogEvent)
    (h : updateInactive s e = .threw s1) : s1 = s := by
  unfold updateInactive at h
  repeat' split at h
  all_goals first
    | (injection h with h; exact h.symm)
    | exact absurd h (by simp)

/-- Fields of the object after `update`, when the first statement of `update`
did not raise. -/
theorem update_fields_of_returned (env : Env) (s s1 : SourceEntry) (e : LogEvent)
    (h : updateInactive s e = .returned s1) :
    (update env s e).state.entries_ = s.entries_ ++ [e] ∧
    (update env s e).state.maxPreviousSourceId_ = s.maxPreviousSourceId_ ∧
    (update env s e).state.isError_ = (updateError env s e).isError_ ∧
    (update env s e).state.isInactive_ = s1.isInactive_ := by
  have hs1 : s1 = { s with isInactive_ := s1.isInactive_ } := by
    have := updateInactive_frame s e
    rw [h] at this
    exact this
  unfold update
  rw [h]
  simp only []
  have hcongr : (updateError env s1 e).isError_ = (updateError env s e).isError_ :=
    updateError_isError_congr env s1 s e (by rw [hs1])
  have hfr := updateError_frame env s1 e
  generalize updateError env s1 e = u at hcongr hfr
  have he : u.entries_ = s.entries_ := by rw [hfr, hs1]
  have hm : u.maxPreviousSourceId_ = s.maxPreviousSourceId_ := by rw [hfr, hs1]
  have hi : u.isInactive_ = s1.isInactive_ := by rw [hfr]
  split
  · rw [updateDescription_entries, updateDescription_isError, updateDescription_isInactive,
      updateDescription_maxPreviousSourceId]
    exact ⟨by rw [he], hm, hcongr, hi⟩
  · simp only [Outcome.state]
    exact ⟨by rw [he], hm, hcongr, hi⟩

theorem update_of_threw (env : Env) (s s1 : SourceEntry) (e : LogEvent)
    (h : updateInactive s e = .threw s1) : update env s e = .threw s := by
  have := updateInactive_threw s s1 e h
  subst this
  unfold update
  rw [h]

/-- Fields of the object after `update`, for an object that already holds an
entry. -/
theorem update_fields (env : Env) (s : SourceEntry) (e first : LogEvent)
    (rest : List LogEvent) (h : s.entries_ = first :: rest) :
    (update env s e).state.entries_ = s.entries_ ++ [e] ∧
    (update env s e).state.maxPreviousSourceId_ = s.maxPreviousSourceId_ ∧
    (update env s e).state.isError_ = (updateError env s e).isError_ ∧
    (update env s e).state.isInactive_ =
      (s.isInactive_ || decide (e.phase = EventPhase.PHASE_END ∧ e.type = first.type)) :=
  update_fields_of_returned env s _ e (updateInactive_cons s e first rest h)

/-- Fields of a newly constructed object. -/
theorem new_fields (env : Env) (e0 : LogEvent) (m : Int) :
    (new env e0 m).state.entries_ = [e0] ∧
    (new env e0 m).state.maxPreviousSourceId_ = m ∧
    ((new env e0 m).state.isError_ = true ↔
      ∃ params netError, e0.params = some params ∧ params.net_error = some netError ∧
        netError ≠ 0 ∧
        ¬ (e0.type = EventType.HTTP_CACHE_OPEN_ENTRY ∧ netError = env.NetError_FAILED)) ∧
    (new env e0 m).state.isInactive_ = decide (e0.phase ≠ EventPhase.PHASE_BEGIN) := by
  unfold new
  simp only []
  by_cases hb : e0.phase = EventPhase.PHASE_BEGIN
  · rw [if_pos hb]
    have h := update_fields_of_returned env
      { maxPreviousSourceId_ := m, entries_ := [], description_ := some "", isError_ := false,
        isInactive_ := false } _ e0 (by
          unfold updateInactive
          rw [if_neg]
          simp [hb])
    refine ⟨by simpa using h.1, h.2.1, ?_, by simpa [hb] using h.2.2.2⟩
    rw [h.2.2.1, updateError_isError]
    simp
  · rw [if_neg hb]
    have h := update_fields_of_returned env
      { maxPreviousSourceId_ := m, entries_ := [], description_ := some "", isError_ := false,
        isInactive_ := true } _ e0 (by
          unfold updateInactive
          rw [if_neg]
          simp)
    refine ⟨by simpa using h.1, h.2.1, ?_, by simpa [hb] using h.2.2.2⟩
    rw [h.2.2.1, updateError_isError]
    simp

/-! ## Runs of events -/

theorem updateAll_nil (env : Env) (s : SourceEntry) : updateAll env s [] = s := rfl

theorem updateAll_cons (env : Env) (s : SourceEntry) (e : LogEvent) (es : List LogEvent) :
    updateAll env s (e :: es) = updateAll env (update env s e).state es := rfl

theorem updateAll_append (env : Env) (s : SourceEntry) (es fs : List LogEvent) :
    updateAll env s (es ++ fs) = updateAll env (updateAll env s es) fs := by
  unfold updateAll
  rw [List.foldl_append]

theorem updateAll_entries (env : Env) (es : List LogEvent) :
    ∀ (s : SourceEntry) (first : LogEvent) (rest : List LogEvent),
      s.entries_ = first :: rest → (updateAll env s es).entries_ = s.entries_ ++ es := by
  induction es with
  | nil => intro s first rest _; simp [updateAll_nil]
  | cons e es ih =>
    intro s first rest h
    have hf := update_fields env s e first rest h
    rw [updateAll_cons, ih (update env s e).state first (rest ++ [e]) (by rw [hf.1, h]; rfl),
      hf.1]
    simp

theorem ofEvents_entries (env : Env) (m : Int) (e0 : LogEvent) (es : List LogEvent) :
    (ofEvents env m e0 es).entries_ = e0 :: es := by
  unfold ofEvents
  have h0 := (new_fields env e0 m).1
  rw [updateAll_entries env es _ e0 [] h0, h0]
  rfl

theorem ofEvents_append (env : Env) (m : Int) (e0 : LogEvent) (es fs : List LogEvent) :
    ofEvents env m e0 (es ++ fs) = updateAll env (ofEvents env m e0 es) fs := by
  unfold ofEvents
  rw [updateAll_append]

theorem ofEvents_snoc (env : Env) (m : Int) (e0 : LogEvent) (es : List LogEvent)
    (e : LogEvent) :
    ofEvents env m e0 (es ++ [e]) = (update env (ofEvents env m e0 es) e).state := by
  rw [ofEvents_append]
  rfl

/-! ## References returned by the lookups -/

theorem entryAt_eq_some (entries : List LogEvent) (i : Nat) (r : EntryRef)
    (h : entryAt entries i = some r) : r.index = i ∧ entries[i]? = some r.event := by
  unfold entryAt at h
  cases he : entries[i]? with
  | none => simp [he] at h
  | some e =>
    simp [he] at h
    subst h
    exact ⟨rfl, rfl⟩

theorem findLogEntryByTypeFrom_some (type : EventType) (entries : List LogEvent) :
    ∀ (i : Nat) (r : EntryRef), findLogEntryByTypeFrom type entries i = some r →
      i ≤ r.index ∧ entries[r.index - i]? = some r.event ∧ r.event.type = type := by
  induction entries with
  | nil => intro i r h; simp [findLogEntryByTypeFrom] at h
  | cons e rest ih =>
    intro i r h
    unfold findLogEntryByTypeFrom at h
    split at h
    · injection h with h
      subst h
      simpa
    · obtain ⟨h1, h2, h3⟩ := ih (i + 1) r h
      refine ⟨by omega, ?_, h3⟩
      have : r.index - i = (r.index - (i + 1)) + 1 := by omega
      rw [this]
      simpa using h2

theorem findLastLogEntryStartByTypeFrom_some (type : EventType) (entries : List LogEvent) :
    ∀ (i : Nat) (r : EntryRef), findLastLogEntryStartByTypeFrom type entries i = some r →
      i ≤ r.index ∧ entries[r.index - i]? = some r.event := by
  induction entries with
  | nil => intro i r h; simp [findLastLogEntryStartByTypeFrom] at h
  | cons e rest ih =>
    intro i r h
    unfold findLastLogEntryStartByTypeFrom at h
    split at h
    · rename_i r1 hr1
      injection h with h
      subst h
      obtain ⟨h1, h2⟩ := ih (i + 1) r1 hr1
      refine ⟨by omega, ?_⟩
      have : r1.index - i = (r1.index - (i + 1)) + 1 := by omega
      rw [this]
      simpa using h2
    · split at h
      · injection h with h
        subst h
        simp
      · exact absurd h (by simp)

theorem skipBlockedOnDelegate_lt (entries : List LogEvent) :
    ∀ (fuel start : Nat), start < entries.length →
      skipBlockedOnDelegate entries fuel start < entries.length := by
  intro fuel
  induction fuel with
  | zero => intro start h; simpa [skipBlockedOnDelegate] using h
  | succ fuel ih =>
    intro start h
    unfold skipBlockedOnDelegate
    split
    · rename_i hc
      exact ih (start + 1) hc.1
    · exact h

theorem entryAt_of_lt (entries : List LogEvent) (i : Nat) (h : i < entries.length) :
    entryAt entries i = some ⟨i, entries[i]⟩ := by
  unfold entryAt
  rw [List.getElem?_eq_getElem h]
  rfl

theorem getStartEntryByPosition_some (e0 : LogEvent) (rest : List LogEvent) :
    ∃ r, getStartEntryByPosition (e0 :: rest) = some r := by
  cases rest with
  | nil => exact ⟨_, entryAt_of_lt _ 0 (by simp)⟩
  | cons e1 rest =>
    unfold getStartEntryByPosition
    simp only []
    split
    · exact ⟨_, entryAt_of_lt _ 1 (by simp)⟩
    · split
      · exact ⟨_, entryAt_of_lt _ _ (skipBlockedOnDelegate_lt _ _ 1 (by simp))⟩
      · split
        · exact ⟨_, entryAt_of_lt _ 1 (by simp)⟩
        · exact ⟨_, entryAt_of_lt _ 0 (by simp)⟩

theorem getStartEntryByPosition_valid (entries : List LogEvent) (r : EntryRef)
    (h : getStartEntryByPosition entries = some r) : entries[r.index]? = some r.event := by
  unfold getStartEntryByPosition at h
  repeat' split at h
  all_goals
    have h2 := entryAt_eq_some _ _ _ h
    rw [h2.1]
    exact h2.2

theorem getStartEntry_isSome (e0 : LogEvent) (rest : List LogEvent) :
    ∃ r, getStartEntry_ (e0 :: rest) = some r := by
  obtain ⟨r, hr⟩ := getStartEntryByPosition_some e0 rest
  unfold getStartEntry_
  simp only []
  rw [hr]
  generalize (if e0.source.type = EventSourceType.FILESTREAM then
      findLogEntryByType_ (e0 :: rest) EventType.FILE_STREAM_OPEN else none) = a
  generalize (if e0.source.type = EventSourceType.DOWNLOAD then
      findLastLogEntryStartByType_ (e0 :: rest) EventType.DOWNLOAD_FILE_RENAMED <|>
      findLogEntryByType_ (e0 :: rest) EventType.DOWNLOAD_FILE_OPENED <|>
      findLogEntryByType_ (e0 :: rest) EventType.DOWNLOAD_ITEM_ACTIVE else none) = b
  cases a <;> cases b <;> simp

theorem findLogEntryByType_valid (entries : List LogEvent) (type : EventType) (r : EntryRef)
    (h : findLogEntryByType_ entries type = some r) : entries[r.index]? = some r.event := by
  have := (findLogEntryByTypeFrom_some type entries 0 r h).2.1
  simpa using this

theorem findLastLogEntryStartByType_valid (entries : List LogEvent) (type : EventType)
    (r : EntryRef) (h : findLastLogEntryStartByType_ entries type = some r) :
    entries[r.index]? = some r.event := by
  have := (findLastLogEntryStartByTypeFrom_some type entries 0 r h).2
  simpa using this

theorem orElse_eq_some_cases {α : Type} (a b : Option α) (r : α) (h : (a <|> b) = some r) :
    a = some r ∨ b = some r := by
  cases a with
  | none => right; simpa using h
  | some x => left; simpa using h

/-- A reference returned by `getStartEntry_` denotes the element of the list
at its index. -/
theorem getStartEntry_valid (entries : List LogEvent) (r : EntryRef)
    (h : getStartEntry_ entries = some r) : entries[r.index]? = some r.event := by
  cases entries with
  | nil => simp [getStartEntry_] at h
  | cons e0 rest =>
    unfold getStartEntry_ at h
    simp only [] at h
    rcases orElse_eq_some_cases _ _ r h with h1 | h1
    · split at h1
      · exact findLogEntryByType_valid _ _ _ h1
      · exact absurd h1 (by simp)
    · rcases orElse_eq_some_cases _ _ r h1 with h2 | h2
      · split at h2
        · rcases orElse_eq_some_cases _ _ r h2 with h3 | h3
          · exact findLastLogEntryStartByType_valid _ _ _ h3
          · rcases orElse_eq_some_cases _ _ r h3 with h4 | h4
            · exact findLogEntryByType_valid _ _ _ h4
            · exact findLogEntryByType_valid _ _ _ h4
        · exact absurd h2 (by simp)
      · exact getStartEntryByPosition_valid _ _ h2

/-! ## The cached description is the one derived from the current entries -/

theorem describeUdpSocket_congr (env : Env) (s t : SourceEntry) (p : Params)
    (h0 : s.entries_[0]? = t.entries_[0]?) (hd : s.description_ = t.description_) :
    (describeUdpSocket env s p).state.description_ =
      (describeUdpSocket env t p).state.description_ := by
  simp only [describeUdpSocket, normalizeDescription_eq, h0, hd]
  repeat' split
  all_goals rfl

/-- The description computed by `updateDescription_` depends on the object
only through its start entry and its first entry. -/
theorem updateDescription_congr (env : Env) (s t : SourceEntry)
    (hs : getStartEntry_ s.entries_ = getStartEntry_ t.entries_)
    (h0 : s.entries_[0]? = t.entries_[0]?) :
    (updateDescription_ env s).state.description_ =
      (updateDescription_ env t).state.description_ := by
  simp only [updateDescription_, hs, normalizeDescription_eq]
  repeat' split
  all_goals first
    | rfl
    | exact describeUdpSocket_congr env _ _ _ h0 rfl

theorem updateDescription_state_eq_self (env : Env) (s : SourceEntry)
    (h : (updateDescription_ env s).state.description_ = s.description_) :
    (updateDescription_ env s).state = s := by
  obtain ⟨d, hd⟩ := updateDescription_frame env s
  rw [hd] at h ⊢
  simp only [] at h
  rw [h]

theorem updateDescription_idempotent (env : Env) (s : SourceEntry) :
    (updateDescription_ env (updateDescription_ env s).state).state =
      (updateDescription_ env s).state :=
  updateDescription_state_eq_self env _
    (updateDescription_congr env (updateDescription_ env s).state s
      (by rw [updateDescription_entries]) (by rw [updateDescription_entries]))

theorem getStartEntry_append_of_index_eq (entries : List LogEvent) (e : LogEvent)
    (h : (getStartEntry_ entries).map (fun r => r.index) =
      (getStartEntry_ (entries ++ [e])).map (fun r => r.index)) :
    getStartEntry_ entries = getStartEntry_ (entries ++ [e]) ∧
      entries[0]? = (entries ++ [e])[0]? := by
  cases entries with
  | nil =>
    obtain ⟨r, hr⟩ := getStartEntry_isSome e []
    rw [List.nil_append, hr] at h
    simp [getStartEntry_] at h
  | cons e0 rest =>
    obtain ⟨r, hr⟩ := getStartEntry_isSome e0 rest
    obtain ⟨r2, hr2⟩ := getStartEntry_isSome e0 (rest ++ [e])
    have hv := getStartEntry_valid _ _ hr
    have hv2 := getStartEntry_valid _ _ hr2
    simp only [List.cons_append] at h ⊢
    rw [hr, hr2] at h ⊢
    simp only [Option.map_some', Option.some.injEq] at h
    have hlt : r.index < (e0 :: rest).length := by
      by_contra hge
      rw [List.getElem?_eq_none (by omega)] at hv
      exact absurd hv (by simp)
    rw [← h, ← List.cons_append, List.getElem?_append_left hlt, hv] at hv2
    refine ⟨?_, by simp⟩
    cases r
    cases r2
    simp only [Option.some.injEq] at hv2
    simp_all

/-- One `update` keeps the cached description equal to the description that
`updateDescription_` derives from the entries. -/
theorem update_fresh (env : Env) (s : SourceEntry) (e : LogEvent)
    (h : (updateDescription_ env s).state = s) :
    (updateDescription_ env (update env s e).state).state = (update env s e).state := by
  cases hu : updateInactive s e with
  | threw s1 =>
    rw [update_of_threw env s s1 e hu]
    exact h
  | returned s1 =>
    have hs1 : s1 = { s with isInactive_ := s1.isInactive_ } := by
      have := updateInactive_frame s e
      rw [hu] at this
      exact this
    unfold update
    rw [hu]
    simp only []
    have hfr := updateError_frame env s1 e
    generalize updateError env s1 e = u at hfr
    have hue : u.entries_ = s.entries_ := by rw [hfr, hs1]
    have hud : u.description_ = s.description_ := by rw [hfr, hs1]
    split
    · exact updateDescription_idempotent env _
    · rename_i hidx
      simp only [ne_eq, not_not] at hidx
      obtain ⟨hst, hhd⟩ := getStartEntry_append_of_index_eq _ _ hidx
      have hc := updateDescription_congr env { u with entries_ := u.entries_ ++ [e] } s
        (by simp only []; rw [← hst, hue]) (by simp only []; rw [← hhd, hue])
      simp only [Outcome.state]
      apply updateDescription_state_eq_self
      rw [hc, h]
      exact hud.symm

theorem updateAll_fresh (env : Env) (es : List LogEvent) :
    ∀ s : SourceEntry, (updateDescription_ env s).state = s →
      (updateDescription_ env (updateAll env s es)).state = updateAll env s es := by
  induction es with
  | nil => intro s h; exact h
  | cons e es ih =>
    intro s h
    rw [updateAll_cons]
    exact ih _ (update_fresh env s e h)

/-- After any run of events the cached description is the one that
`updateDescription_` derives from the current entries. -/
theorem ofEvents_fresh (env : Env) (m : Int) (e0 : LogEvent) (es : List LogEvent) :
    (updateDescription_ env (ofEvents env m e0 es)).state = ofEvents env m e0 es := by
  unfold ofEvents
  apply updateAll_fresh
  unfold new
  apply update_fresh
  split <;> rfl


/-! ## Error flag -/

/-- Claim C1.  For an object that holds at least one entry (every constructed
`SourceEntry` does) and every event, `isError()` is true after `update(event)`
exactly when it was true before, or the event has `params` whose `net_error` is
defined and nonzero, unless the event type is `HTTP_CACHE_OPEN_ENTRY` and the
code is `NetError.FAILED`. -/
theorem update_isError_iff (env : Env) (s : SourceEntry) (e : LogEvent)
    (h : s.getLogEntries ≠ []) :
    (update env s e).state.isError = true ↔
      (s.isError = true ∨
        ∃ params netError, e.params = some params ∧ params.net_error = some netError ∧
          netError ≠ 0 ∧
          ¬ (e.type = EventType.HTTP_CACHE_OPEN_ENTRY ∧ netError = env.NetError_FAILED)) := by
  unfold getLogEntries at h
  obtain ⟨first, rest, hfr⟩ := List.exists_cons_of_ne_nil h
  have hf := update_fields env s e first rest hfr
  unfold isError
  rw [hf.2.2.1]
  exact updateError_isError env s e

/-- Instance of C1: a cache miss applied to a connect-job source. -/
theorem update_isError_iff_witness :
    (ofEvents exampleEnv 0 connectJobBegin []).getLogEntries ≠ [] ∧
    ((update exampleEnv (ofEvents exampleEnv 0 connectJobBegin []) cacheOpenEntryMiss).state.isError
        = true ↔
      ((ofEvents exampleEnv 0 connectJobBegin []).isError = true ∨
        ∃ params netError, cacheOpenEntryMiss.params = some params ∧
          params.net_error = some netError ∧ netError ≠ 0 ∧
          ¬ (cacheOpenEntryMiss.type = EventType.HTTP_CACHE_OPEN_ENTRY ∧
              netError = exampleEnv.NetError_FAILED))) :=
  ⟨by decide,
    update_isError_iff exampleEnv (ofEvents exampleEnv 0 connectJobBegin []) cacheOpenEntryMiss
      (by decide)⟩

theorem update_isError_of_isError (env : Env) (s : SourceEntry) (e : LogEvent)
    (h : s.isError_ = true) : (update env s e).state.isError_ = true := by
  cases hu : updateInactive s e with
  | returned s1 =>
    rw [(update_fields_of_returned env s s1 e hu).2.2.1, updateError_isError]
    exact Or.inl h
  | threw s1 =>
    rw [update_of_threw env s s1 e hu]
    exact h

theorem updateAll_isError_of_isError (env : Env) (es : List LogEvent) :
    ∀ s : SourceEntry, s.isError_ = true → (updateAll env s es).isError_ = true := by
  induction es with
  | nil => intro s h; exact h
  | cons e es ih =>
    intro s h
    rw [updateAll_cons]
    exact ih _ (update_isError_of_isError env s e h)

/-- Claim C2.  Once `isError()` is true after the events `e0, pre` have been
processed, it is true after any further updates `post`. -/
theorem isError_monotonic (env : Env) (m : Int) (e0 : LogEvent) (pre post : List LogEvent)
    (h : (ofEvents env m e0 pre).isError = true) :
    (ofEvents env m e0 (pre ++ post)).isError = true := by
  rw [ofEvents_append]
  exact updateAll_isError_of_isError env post _ h

/-- Instance of C2: after a failed connect job, a later event without an error
code leaves the flag set. -/
theorem isError_monotonic_witness :
    (ofEvents exampleEnv 0 connectJobBegin [connectJobEndFailed]).isError = true ∧
    (ofEvents exampleEnv 0 connectJobBegin
        ([connectJobEndFailed] ++ [connectJobBeginAgain])).isError = true :=
  ⟨by decide,
    isError_monotonic exampleEnv 0 connectJobBegin [connectJobEndFailed] [connectJobBeginAgain]
      (by decide)⟩

/-! ## Activity flag -/

theorem updateAll_isInactive (env : Env) (e0 : LogEvent) (es : List LogEvent) :
    ∀ (s : SourceEntry) (rest : List LogEvent), s.entries_ = e0 :: rest →
      ((updateAll env s es).isInactive_ = true ↔
        (s.isInactive_ = true ∨
          ∃ e ∈ es, e.phase = EventPhase.PHASE_END ∧ e.type = e0.type)) := by
  induction es with
  | nil => intro s rest _; simp [updateAll_nil]
  | cons e es ih =>
    intro s rest h
    have hf := update_fields env s e e0 rest h
    rw [updateAll_cons, ih (update env s e).state (rest ++ [e]) (by rw [hf.1, h]; rfl),
      hf.2.2.2]
    simp only [Bool.or_eq_true, decide_eq_true_eq, List.mem_cons, exists_eq_or_imp]
    tauto

/-- Claim C3.  After constructing from `e0` and applying `es` in order,
`isInactive()` is true exactly when `e0.phase` is not `PHASE_BEGIN` or some
later event has phase `PHASE_END` and the type of `e0`. -/
theorem isInactive_iff (env : Env) (m : Int) (e0 : LogEvent) (es : List LogEvent) :
    (ofEvents env m e0 es).isInactive = true ↔
      (e0.phase ≠ EventPhase.PHASE_BEGIN ∨
        ∃ e ∈ es, e.phase = EventPhase.PHASE_END ∧ e.type = e0.type) := by
  unfold ofEvents isInactive
  have h0 := new_fields env e0 m
  rw [updateAll_isInactive env e0 es _ [] h0.1, h0.2.2.2]
  simp

/-- Claim C4.  If `isInactive()` is true, it is still true after
`update(event)`, whatever the event. -/
theorem update_isInactive_of_isInactive (env : Env) (s : SourceEntry) (e : LogEvent)
    (h : s.isInactive = true) : (update env s e).state.isInactive = true := by
  unfold isInactive at h ⊢
  have hu : updateInactive s e = .returned s := by
    unfold updateInactive
    rw [if_neg]
    simp [h]
  rw [(update_fields_of_returned env s s e hu).2.2.2]
  exact h

/-- Instance of C4: a closed connect job is not reopened by a later BEGIN event
of the first type. -/
theorem update_isInactive_of_isInactive_witness :
    (ofEvents exampleEnv 0 connectJobBegin [connectJobEndFailed]).isInactive = true ∧
    (update exampleEnv (ofEvents exampleEnv 0 connectJobBegin [connectJobEndFailed])
        connectJobBeginAgain).state.isInactive = true :=
  ⟨by decide,
    update_isInactive_of_isInactive exampleEnv
      (ofEvents exampleEnv 0 connectJobBegin [connectJobEndFailed]) connectJobBeginAgain
      (by decide)⟩

/-! ## Entry list and fixed metadata -/

/-- Claim C5.  After constructing from `e0` and applying `es` in order,
`getLogEntries()` is `e0, es` in arrival order, it is not empty, and one more
`update(e)` appends `e` at the end and keeps every earlier element. -/
theorem getLogEntries_ofEvents (env : Env) (m : Int) (e0 : LogEvent) (es : List LogEvent) :
    (ofEvents env m e0 es).getLogEntries = e0 :: es ∧
    (ofEvents env m e0 es).getLogEntries ≠ [] ∧
    ∀ e : LogEvent,
      (update env (ofEvents env m e0 es) e).state.getLogEntries =
        (ofEvents env m e0 es).getLogEntries ++ [e] := by
  unfold getLogEntries
  have h := ofEvents_entries env m e0 es
  refine ⟨h, by rw [h]; simp, ?_⟩
  intro e
  exact (update_fields env _ e e0 es h).1

theorem updateAll_maxPreviousSourceId (env : Env) (es : List LogEvent) :
    ∀ (s : SourceEntry) (first : LogEvent) (rest : List LogEvent),
      s.entries_ = first :: rest →
      (updateAll env s es).maxPreviousSourceId_ = s.maxPreviousSourceId_ := by
  induction es with
  | nil => intro s first rest _; rfl
  | cons e es ih =>
    intro s first rest h
    have hf := update_fields env s e first rest h
    rw [updateAll_cons, ih (update env s e).state first (rest ++ [e]) (by rw [hf.1, h]; rfl),
      hf.2.1]

/-- Claim C6.  For an object constructed from `firstEvent` and
`maxPreviousSourceId` and updated with any events, `getSourceType()` is
`firstEvent.source.type`, `getSourceId()` is `firstEvent.source.id` and
`getMaxPreviousEntrySourceId()` is `maxPreviousSourceId`. -/
theorem source_metadata_fixed (env : Env) (maxPreviousSourceId : Int) (firstEvent : LogEvent)
    (events : List LogEvent) :
    (ofEvents env maxPreviousSourceId firstEvent events).getSourceType =
      some firstEvent.source.type ∧
    (ofEvents env maxPreviousSourceId firstEvent events).getSourceId =
      some firstEvent.source.id ∧
    (ofEvents env maxPreviousSourceId firstEvent events).getMaxPreviousEntrySourceId =
      maxPreviousSourceId := by
  have h := ofEvents_entries env maxPreviousSourceId firstEvent events
  refine ⟨by simp [getSourceType, h], by simp [getSourceId, h], ?_⟩
  unfold getMaxPreviousEntrySourceId ofEvents
  have h0 := new_fields env firstEvent maxPreviousSourceId
  rw [updateAll_maxPreviousSourceId env events _ firstEvent [] h0.1, h0.2.1]

/-! ## Description of a DOWNLOAD source -/

theorem findLastLogEntryStartByTypeFrom_event (type : EventType) (entries : List LogEvent) :
    ∀ i : Nat, (findLastLogEntryStartByTypeFrom type entries i).map (fun r => r.event) =
      (entries.filter
        (fun e => decide (e.type = type ∧ e.phase ≠ EventPhase.PHASE_END))).getLast? := by
  induction entries with
  | nil => intro i; rfl
  | cons e rest ih =>
    intro i
    unfold findLastLogEntryStartByTypeFrom
    have ih1 := ih (i + 1)
    rw [List.filter_cons]
    cases hr : findLastLogEntryStartByTypeFrom type rest (i + 1) with
    | some r =>
      rw [hr] at ih1
      simp only [Option.map_some'] at ih1 ⊢
      split
      · rw [List.getLast?_cons, ← ih1]
        rfl
      · exact ih1
    | none =>
      rw [hr] at ih1
      simp only [Option.map_none'] at ih1
      have hnil := List.getLast?_eq_none_iff.mp ih1.symm
      rw [hnil]
      by_cases hp : e.type = type ∧ e.phase ≠ EventPhase.PHASE_END
      · simp [hp]
      · simp [hp]

/-- For a DOWNLOAD source with a rename that has started, the start entry is
the last `DOWNLOAD_FILE_RENAMED` entry whose phase is not `PHASE_END`. -/
theorem getStartEntry_download_renamed (e0 : LogEvent) (es : List LogEvent) (last : LogEvent)
    (h0 : e0.source.type = EventSourceType.DOWNLOAD)
    (hlast : ((e0 :: es).filter (fun e => decide (e.type = EventType.DOWNLOAD_FILE_RENAMED ∧
      e.phase ≠ EventPhase.PHASE_END))).getLast? = some last) :
    ∃ i, getStartEntry_ (e0 :: es) = some ⟨i, last⟩ := by
  have hev := findLastLogEntryStartByTypeFrom_event EventType.DOWNLOAD_FILE_RENAMED (e0 :: es) 0
  rw [hlast] at hev
  cases hf : findLastLogEntryStartByTypeFrom EventType.DOWNLOAD_FILE_RENAMED (e0 :: es) 0 with
  | none => rw [hf] at hev; exact absurd hev (by simp)
  | some r =>
    rw [hf] at hev
    simp only [Option.map_some', Option.some.injEq] at hev
    refine ⟨r.index, ?_⟩
    unfold getStartEntry_
    simp only [h0, findLastLogEntryStartByType_, hf]
    cases r
    simp only [] at hev
    subst hev
    simp

theorem updateDescription_download_renamed (env : Env) (s : SourceEntry) (r : EntryRef)
    (hs : getStartEntry_ s.entries_ = some r)
    (hsrc : r.event.source.type = EventSourceType.DOWNLOAD)
    (hty : r.event.type = EventType.DOWNLOAD_FILE_RENAMED) :
    (updateDescription_ env s).state.description_ =
      some ((r.event.params.bind (fun p => p.new_filename)).getD "") := by
  simp only [updateDescription_, hs, hsrc, hty, normalizeDescription_eq]
  cases hp : r.event.params with
  | none => simp [Outcome.state]
  | some p => simp [Outcome.state]

/-- Claim C7, amended.  For events that all have source type DOWNLOAD and
contain a `DOWNLOAD_FILE_RENAMED` event with a phase other than `PHASE_END`,
`getDescription()` after the whole sequence is the `new_filename` of the last
such event when that event defines it, and the empty string when it does not. -/
theorem download_description_last_rename (env : Env) (m : Int) (e0 : LogEvent)
    (es : List LogEvent) (last : LogEvent)
    (hsrc : ∀ e ∈ e0 :: es, e.source.type = EventSourceType.DOWNLOAD)
    (hlast : ((e0 :: es).filter (fun e => decide (e.type = EventType.DOWNLOAD_FILE_RENAMED ∧
      e.phase ≠ EventPhase.PHASE_END))).getLast? = some last) :
    (ofEvents env m e0 es).getDescription =
      some ((last.params.bind (fun p => p.new_filename)).getD "") := by
  obtain ⟨i, hi⟩ := getStartEntry_download_renamed e0 es last (hsrc e0 (by simp)) hlast
  have hmem := List.mem_of_getLast?_eq_some hlast
  rw [List.mem_filter] at hmem
  have hty : last.type = EventType.DOWNLOAD_FILE_RENAMED := by
    have := hmem.2
    simp only [decide_eq_true_eq] at this
    exact this.1
  unfold getDescription
  rw [← ofEvents_fresh env m e0 es]
  exact updateDescription_download_renamed env _ ⟨i, last⟩
    (by rw [ofEvents_entries]; exact hi) (hsrc last hmem.1) hty

/-- Instance of the amended C7: item-active (A), file-opened (B), rename
started (C), rename ended (D) gives the description C. -/
theorem download_description_last_rename_witness :
    (∀ e ∈ [downloadItemActive, downloadFileOpened, downloadFileRenamedBegin,
        downloadFileRenamedEnd], e.source.type = EventSourceType.DOWNLOAD) ∧
    ([downloadItemActive, downloadFileOpened, downloadFileRenamedBegin,
        downloadFileRenamedEnd].filter
      (fun e => decide (e.type = EventType.DOWNLOAD_FILE_RENAMED ∧
        e.phase ≠ EventPhase.PHASE_END))).getLast? = some downloadFileRenamedBegin ∧
    (ofEvents exampleEnv 0 downloadItemActive
      [downloadFileOpened, downloadFileRenamedBegin, downloadFileRenamedEnd]).getDescription =
      some "C" :=
  ⟨by decide, by decide,
    download_description_last_rename exampleEnv 0 downloadItemActive
      [downloadFileOpened, downloadFileRenamedBegin, downloadFileRenamedEnd]
      downloadFileRenamedBegin (by decide) (by decide)⟩

/-- Counterexample to C7 as stated.  In the sequence rename-started (C),
rename-started (no `new_filename`), every event has source type DOWNLOAD and the
last started rename that defines `new_filename` names C, yet the description is
the empty string. -/
theorem download_description_counterexample :
    (∀ e ∈ [downloadFileRenamedBegin, downloadFileRenamedUnnamed],
      e.source.type = EventSourceType.DOWNLOAD) ∧
    (([downloadFileRenamedBegin, downloadFileRenamedUnnamed].filter
      (fun e => decide (e.type = EventType.DOWNLOAD_FILE_RENAMED ∧
        e.phase ≠ EventPhase.PHASE_END ∧
        (e.params.bind (fun p => p.new_filename)).isSome))).getLast?.bind
      (fun e => e.params.bind (fun p => p.new_filename))) = some "C" ∧
    (ofEvents exampleEnv 0 downloadFileRenamedBegin
      [downloadFileRenamedUnnamed]).getDescription = some "" ∧
    (ofEvents exampleEnv 0 downloadFileRenamedBegin
      [downloadFileRenamedUnnamed]).getDescription ≠ some "C" := by
  decide

/-! ## Start entry after REQUEST_ALIVE -/

theorem skipBlockedOnDelegate_eq (entries : List LogEvent) (j : Nat)
    (hj : j < entries.length)
    (hnb : (entries[j]?).map (fun e => e.type) ≠
      some EventType.URL_REQUEST_BLOCKED_ON_DELEGATE) :
    ∀ (fuel start : Nat), start ≤ j → j - start ≤ fuel →
      (∀ i, start ≤ i → i < j →
        (entries[i]?).map (fun e => e.type) = some EventType.URL_REQUEST_BLOCKED_ON_DELEGATE) →
      skipBlockedOnDelegate entries fuel start = j := by
  intro fuel
  induction fuel with
  | zero =>
    intro start h1 h2 _
    unfold skipBlockedOnDelegate
    omega
  | succ fuel ih =>
    intro start h1 h2 hall
    unfold skipBlockedOnDelegate
    by_cases hsj : start = j
    · subst hsj
      rw [if_neg]
      intro hc
      exact hnb hc.2
    · have hlt : start < j := by omega
      rw [if_pos ⟨by omega, hall start (le_refl _) hlt⟩]
      exact ih (start + 1) (by omega) (by omega)
        (fun i hi1 hi2 => hall i (by omega) hi2)

theorem getStartEntry_of_not_special (e0 : LogEvent) (rest : List LogEvent)
    (hf : e0.source.type ≠ EventSourceType.FILESTREAM)
    (hd : e0.source.type ≠ EventSourceType.DOWNLOAD) :
    getStartEntry_ (e0 :: rest) = getStartEntryByPosition (e0 :: rest) := by
  unfold getStartEntry_
  simp [hf, hd]

theorem updateDescription_url (env : Env) (s : SourceEntry) (r : EntryRef)
    (hs : getStartEntry_ s.entries_ = some r)
    (hsrc : r.event.source.type = EventSourceType.URL_REQUEST) :
    (updateDescription_ env s).state.description_ =
      some ((r.event.params.bind (fun p => p.url)).getD "") := by
  simp only [updateDescription_, hs, hsrc, normalizeDescription_eq]
  cases hp : r.event.params with
  | none => simp [Outcome.state]
  | some p => simp [Outcome.state]

/-- Claim C8, amended.  Let the first entry have type `REQUEST_ALIVE`, the
second a type other than `UDP_CONNECT`, and let `j >= 1` be the smallest index
whose entry `ej` is not of type `URL_REQUEST_BLOCKED_ON_DELEGATE`.  For a source
that is neither FILESTREAM nor DOWNLOAD, `getStartEntry_` returns the entry at
`j`; for a URL_REQUEST source built event by event, `getDescription()` is then
`ej.params.url` when it is defined, and the empty string when `ej` has no
params or no `url`. -/
theorem request_alive_start_entry (env : Env) (m : Int) (e0 e1 : LogEvent)
    (rest : List LogEvent) (j : Nat) (ej : LogEvent)
    (h0 : e0.type = EventType.REQUEST_ALIVE) (h1 : e1.type ≠ EventType.UDP_CONNECT)
    (hj1 : 1 ≤ j) (hj : (e0 :: e1 :: rest)[j]? = some ej)
    (hnb : ej.type ≠ EventType.URL_REQUEST_BLOCKED_ON_DELEGATE)
    (hmin : ∀ i, 1 ≤ i → i < j →
      ((e0 :: e1 :: rest)[i]?).map (fun e => e.type) =
        some EventType.URL_REQUEST_BLOCKED_ON_DELEGATE) :
    (e0.source.type ≠ EventSourceType.FILESTREAM → e0.source.type ≠ EventSourceType.DOWNLOAD →
      getStartEntry_ (e0 :: e1 :: rest) = some ⟨j, ej⟩) ∧
    ((∀ e ∈ e0 :: e1 :: rest, e.source.type = EventSourceType.URL_REQUEST) →
      (ofEvents env m e0 (e1 :: rest)).getDescription =
        some ((ej.params.bind (fun p => p.url)).getD "")) := by
  have hlen : j < (e0 :: e1 :: rest).length := by
    by_contra hge
    rw [List.getElem?_eq_none (by omega)] at hj
    exact absurd hj (by simp)
  have hskip : skipBlockedOnDelegate (e0 :: e1 :: rest) (e0 :: e1 :: rest).length 1 = j :=
    skipBlockedOnDelegate_eq _ j hlen (by rw [hj]; simpa using hnb) _ 1 hj1 (by omega) hmin
  have hpos : getStartEntryByPosition (e0 :: e1 :: rest) = some ⟨j, ej⟩ := by
    unfold getStartEntryByPosition
    simp only [h0, h1, or_false, if_true]
    rw [if_neg (by decide), hskip]
    unfold entryAt
    rw [hj]
    rfl
  have hstart : e0.source.type ≠ EventSourceType.FILESTREAM →
      e0.source.type ≠ EventSourceType.DOWNLOAD →
      getStartEntry_ (e0 :: e1 :: rest) = some ⟨j, ej⟩ := by
    intro hf hd
    rw [getStartEntry_of_not_special e0 _ hf hd, hpos]
  refine ⟨hstart, ?_⟩
  intro hsrc
  have hs0 := hsrc e0 (by simp)
  have hsj := hsrc ej (List.getElem?_mem hj)
  unfold getDescription
  rw [← ofEvents_fresh env m e0 (e1 :: rest)]
  exact updateDescription_url env _ ⟨j, ej⟩
    (by rw [ofEvents_entries]; exact hstart (by rw [hs0]; decide) (by rw [hs0]; decide)) hsj

/-- Instance of the amended C8: request-alive, blocked-on-delegate twice, then
the job start for "http://x" gives the fourth event and that URL. -/
theorem request_alive_start_entry_witness :
    getStartEntry_ [requestAlive, blockedOnDelegate, blockedOnDelegate, urlRequestStartJob] =
      some ⟨3, urlRequestStartJob⟩ ∧
    (ofEvents exampleEnv 0 requestAlive
      [blockedOnDelegate, blockedOnDelegate, urlRequestStartJob]).getDescription =
      some "http://x" :=
  have h := request_alive_start_entry exampleEnv 0 requestAlive blockedOnDelegate
    [blockedOnDelegate, urlRequestStartJob] 3 urlRequestStartJob (by decide) (by decide)
    (by decide) (by decide) (by decide)
    (by intro i a b; interval_cases i <;> decide)
  ⟨h.1 (by decide) (by decide), h.2 (by decide)⟩

/-- Counterexample to C8 as stated.  For request-alive followed by an event
whose params hold no `url`, the hypotheses hold with the smallest index 1, but
`getDescription()` is the empty string while that entry's `params.url` is
`undefined`. -/
theorem request_alive_description_counterexample :
    (∀ e ∈ [requestAlive, urlRequestEventNoUrl],
      e.source.type = EventSourceType.URL_REQUEST) ∧
    requestAlive.type = EventType.REQUEST_ALIVE ∧
    urlRequestEventNoUrl.type ≠ EventType.UDP_CONNECT ∧
    urlRequestEventNoUrl.type ≠ EventType.URL_REQUEST_BLOCKED_ON_DELEGATE ∧
    getStartEntry_ [requestAlive, urlRequestEventNoUrl] =
      some ⟨1, urlRequestEventNoUrl⟩ ∧
    (ofEvents exampleEnv 0 requestAlive [urlRequestEventNoUrl]).getDescription = some "" ∧
    (ofEvents exampleEnv 0 requestAlive [urlRequestEventNoUrl]).getDescription ≠
      urlRequestEventNoUrl.params.bind (fun p => p.url) := by
  decide

/-! ## Description of a UDP_SOCKET source -/

theorem string_length_pos_of_ne_empty (d : String) (h : d ≠ "") : d.length > 0 := by
  rcases d with ⟨l⟩
  cases l with
  | nil => exact absurd rfl h
  | cons c cs => simp [String.length]

/-- Claim C9.  Let the object hold events of a UDP_SOCKET source whose first
event has type `SOCKET_ALIVE` and `params.source_dependency.id = P`, and whose
start entry has `params.address = A`.  Then `updateDescription_` returns with
the description `A + " [" + D + "]"` when the tracker maps `P` to an entry of
source type `HOST_RESOLVER_IMPL_JOB` with non-empty description `D`, and with
the description `A` when the tracker has no entry for `P`, when the parent has
another source type, or when the parent has an empty description. -/
theorem udp_socket_description (env : Env) (s : SourceEntry) (first : LogEvent)
    (firstParams : Params) (P : Int) (r : EntryRef) (params : Params) (A : String)
    (hsrc : ∀ e ∈ s.getLogEntries, e.source.type = EventSourceType.UDP_SOCKET)
    (hfirst : s.getLogEntries[0]? = some first)
    (hty : first.type = EventType.SOCKET_ALIVE)
    (hfp : first.params = some firstParams)
    (hdep : firstParams.source_dependency = some ⟨P⟩)
    (hstart : getStartEntry_ s.getLogEntries = some r)
    (hparams : r.event.params = some params)
    (haddr : params.address = some A) :
    (∀ parent D, env.tracker.getSourceEntry P = some parent →
      parent.getSourceType = some EventSourceType.HOST_RESOLVER_IMPL_JOB →
      parent.getDescription = some D → D ≠ "" →
      updateDescription_ env s =
        .returned { s with description_ := some (A ++ " [" ++ D ++ "]") }) ∧
    (env.tracker.getSourceEntry P = none →
      updateDescription_ env s = .returned { s with description_ := some A }) ∧
    (∀ parent T, env.tracker.getSourceEntry P = some parent →
      parent.getSourceType = some T → T ≠ EventSourceType.HOST_RESOLVER_IMPL_JOB →
      updateDescription_ env s = .returned { s with description_ := some A }) ∧
    (∀ parent T, env.tracker.getSourceEntry P = some parent →
      parent.getSourceType = some T → parent.getDescription = some "" →
      updateDescription_ env s = .returned { s with description_ := some A }) := by
  unfold getLogEntries at hsrc hfirst hstart
  have hrsrc : r.event.source.type = EventSourceType.UDP_SOCKET :=
    hsrc _ (List.getElem?_mem (getStartEntry_valid _ _ hstart))
  have hmain : updateDescription_ env s =
      describeUdpSocket env { s with description_ := some "" } params := by
    simp only [updateDescription_, hstart, hrsrc, hparams]
    rw [if_neg (by decide)]
  rw [hmain]
  refine ⟨?_, ?_, ?_, ?_⟩
  · intro parent D hp hT hD hne
    have hlen := string_length_pos_of_ne_empty D hne
    simp [describeUdpSocket, haddr, hfirst, hty, hfp, hdep, hp, hT, hD, hlen,
      normalizeDescription_eq, String.append_assoc]
  · intro hp
    simp [describeUdpSocket, haddr, hfirst, hty, hfp, hdep, hp, normalizeDescription_eq]
  · intro parent T hp hT hne
    simp [describeUdpSocket, haddr, hfirst, hty, hfp, hdep, hp, hT, hne,
      normalizeDescription_eq]
  · intro parent T hp hT hD
    by_cases hj : T = EventSourceType.HOST_RESOLVER_IMPL_JOB
    · simp [describeUdpSocket, haddr, hfirst, hty, hfp, hdep, hp, hT, hj, hD,
        normalizeDescription_eq]
    · simp [describeUdpSocket, haddr, hfirst, hty, hfp, hdep, hp, hT, hj,
        normalizeDescription_eq]

/-- Instance of C9: a UDP socket created by the host resolver job for
"example.com" and connected to "8.8.8.8:53". -/
theorem udp_socket_description_witness :
    (ofEvents resolverEnv 0 socketAlive [udpConnect]).getDescription =
      some "8.8.8.8:53 [example.com]" ∧
    updateDescription_ resolverEnv (ofEvents resolverEnv 0 socketAlive [udpConnect]) =
      .returned { ofEvents resolverEnv 0 socketAlive [udpConnect] with
        description_ := some ("8.8.8.8:53" ++ " [" ++ "example.com" ++ "]") } :=
  ⟨by decide,
    (udp_socket_description resolverEnv (ofEvents resolverEnv 0 socketAlive [udpConnect])
      socketAlive { source_dependency := some { id := 3 } } 3 ⟨1, udpConnect⟩
      { address := some "8.8.8.8:53" } "8.8.8.8:53"
      (by decide) (by decide) (by decide) (by decide) (by decide) (by decide) (by decide)
      (by decide)).1
      (ofEvents exampleEnv 0 hostResolverJob []) "example.com"
      (by decide) (by decide) (by decide) (by decide)⟩

/-! ## Description of a source of type NONE -/

theorem findLogEntryByTypeFrom_map (type : EventType) (entries : List LogEvent) :
    ∀ i : Nat, findLogEntryByTypeFrom type (entries.map LogEvent.withoutParams) i =
      (findLogEntryByTypeFrom type entries i).map
        (fun r => ⟨r.index, r.event.withoutParams⟩) := by
  induction entries with
  | nil => intro i; rfl
  | cons e rest ih =>
    intro i
    simp only [List.map_cons, findLogEntryByTypeFrom, ih (i + 1)]
    by_cases h : e.type = type
    · simp [h, LogEvent.withoutParams]
    · simp [h, LogEvent.withoutParams]

theorem findLastLogEntryStartByTypeFrom_map (type : EventType) (entries : List LogEvent) :
    ∀ i : Nat, findLastLogEntryStartByTypeFrom type (entries.map LogEvent.withoutParams) i =
      (findLastLogEntryStartByTypeFrom type entries i).map
        (fun r => ⟨r.index, r.event.withoutParams⟩) := by
  induction entries with
  | nil => intro i; rfl
  | cons e rest ih =>
    intro i
    simp only [List.map_cons, findLastLogEntryStartByTypeFrom, ih (i + 1)]
    cases findLastLogEntryStartByTypeFrom type rest (i + 1) with
    | some r => rfl
    | none =>
      by_cases h : e.type = type ∧ e.phase ≠ EventPhase.PHASE_END
      · simp [h, LogEvent.withoutParams]
      · simp [h, LogEvent.withoutParams]

theorem skipBlockedOnDelegate_map (entries : List LogEvent) :
    ∀ fuel start : Nat,
      skipBlockedOnDelegate (entries.map LogEvent.withoutParams) fuel start =
        skipBlockedOnDelegate entries fuel start := by
  intro fuel
  induction fuel with
  | zero => intro start; rfl
  | succ fuel ih =>
    intro start
    simp only [skipBlockedOnDelegate, ih, List.length_map, List.getElem?_map, Option.map_map]
    rfl

theorem entryAt_map (entries : List LogEvent) (i : Nat) :
    entryAt (entries.map LogEvent.withoutParams) i =
      (entryAt entries i).map (fun r => ⟨r.index, r.event.withoutParams⟩) := by
  simp only [entryAt, List.getElem?_map, Option.map_map]
  rfl

theorem getStartEntryByPosition_map (entries : List LogEvent) :
    getStartEntryByPosition (entries.map LogEvent.withoutParams) =
      (getStartEntryByPosition entries).map (fun r => ⟨r.index, r.event.withoutParams⟩) := by
  have hmap : ∀ l : List LogEvent, entryAt (l.map LogEvent.withoutParams) 0 =
      (entryAt l 0).map (fun r => ⟨r.index, r.event.withoutParams⟩) :=
    fun l => entryAt_map l 0
  match entries with
  | [] => rfl
  | [e0] => exact hmap [e0]
  | e0 :: e1 :: rest =>
    have h1 := entryAt_map (e0 :: e1 :: rest) 1
    have h0 := entryAt_map (e0 :: e1 :: rest) 0
    have hk := entryAt_map (e0 :: e1 :: rest)
      (skipBlockedOnDelegate (e0 :: e1 :: rest) (e0 :: e1 :: rest).length 1)
    have hs := skipBlockedOnDelegate_map (e0 :: e1 :: rest) (e0 :: e1 :: rest).length 1
    simp only [List.map_cons, List.length_cons, List.length_map] at h0 h1 hk hs ⊢
    unfold getStartEntryByPosition
    simp only [List.length_cons, List.length_map, hs, h0, h1, hk]
    have ht0 : e0.withoutParams.type = e0.type := rfl
    have ht1 : e1.withoutParams.type = e1.type := rfl
    rw [ht0, ht1]
    repeat' split
    all_goals rfl

theorem getStartEntry_map (entries : List LogEvent) :
    getStartEntry_ (entries.map LogEvent.withoutParams) =
      (getStartEntry_ entries).map (fun r => ⟨r.index, r.event.withoutParams⟩) := by
  cases entries with
  | nil => rfl
  | cons e0 rest =>
    have hp := getStartEntryByPosition_map (e0 :: rest)
    have hf := fun ty => findLogEntryByTypeFrom_map ty (e0 :: rest) 0
    have hl := fun ty => findLastLogEntryStartByTypeFrom_map ty (e0 :: rest) 0
    simp only [List.map_cons] at hp hf hl ⊢
    unfold getStartEntry_
    simp only [findLogEntryByType_, findLastLogEntryStartByType_, hp, hf, hl]
    have hs0 : e0.withoutParams.source = e0.source := rfl
    rw [hs0]
    generalize findLogEntryByTypeFrom EventType.FILE_STREAM_OPEN (e0 :: rest) 0 = a
    generalize findLastLogEntryStartByTypeFrom EventType.DOWNLOAD_FILE_RENAMED (e0 :: rest) 0 = b
    generalize findLogEntryByTypeFrom EventType.DOWNLOAD_FILE_OPENED (e0 :: rest) 0 = c
    generalize findLogEntryByTypeFrom EventType.DOWNLOAD_ITEM_ACTIVE (e0 :: rest) 0 = d
    generalize getStartEntryByPosition (e0 :: rest) = p
    by_cases h1 : e0.source.type = EventSourceType.FILESTREAM <;>
      by_cases h2 : e0.source.type = EventSourceType.DOWNLOAD <;>
      cases a <;> cases b <;> cases c <;> cases d <;> cases p <;> simp [h1, h2]

theorem updateDescription_none (env : Env) (s : SourceEntry) (r : EntryRef)
    (hs : getStartEntry_ s.entries_ = some r)
    (hsrc : r.event.source.type = EventSourceType.NONE) :
    (updateDescription_ env s).state.description_ = env.EventTypeNames r.event.type := by
  simp only [updateDescription_, hs, hsrc]
  simp [Outcome.state]

theorem ofEvents_description_none (env : Env) (m : Int) (e0 : LogEvent) (es : List LogEvent)
    (r : EntryRef) (h : ∀ e ∈ e0 :: es, e.source.type = EventSourceType.NONE)
    (hr : getStartEntry_ (e0 :: es) = some r) :
    (ofEvents env m e0 es).description_ = env.EventTypeNames r.event.type := by
  rw [← ofEvents_fresh env m e0 es]
  exact updateDescription_none env _ r (by rw [ofEvents_entries]; exact hr)
    (h _ (List.getElem?_mem (getStartEntry_valid _ _ hr)))

/-- Claim C10.  For events that all have source type NONE, `getDescription()`
is the entry of the table `EventTypeNames` for the type of the start entry, and
a second sequence that differs from the first only in the `params` of its
events has the same description. -/
theorem none_source_description (env : Env) (m : Int) (e0 : LogEvent) (es : List LogEvent)
    (h : ∀ e ∈ e0 :: es, e.source.type = EventSourceType.NONE) :
    (∃ r, getStartEntry_ (e0 :: es) = some r ∧
      (ofEvents env m e0 es).getDescription = env.EventTypeNames r.event.type) ∧
    (∀ (m2 : Int) (f0 : LogEvent) (fs : List LogEvent),
      (f0 :: fs).map LogEvent.withoutParams = (e0 :: es).map LogEvent.withoutParams →
      (ofEvents env m2 f0 fs).getDescription = (ofEvents env m e0 es).getDescription) := by
  obtain ⟨r, hr⟩ := getStartEntry_isSome e0 es
  have hd := ofEvents_description_none env m e0 es r h hr
  refine ⟨⟨r, hr, hd⟩, ?_⟩
  intro m2 f0 fs hmap
  have h2 : ∀ e ∈ f0 :: fs, e.source.type = EventSourceType.NONE := by
    intro e he
    have hmem : e.withoutParams ∈ (e0 :: es).map LogEvent.withoutParams := by
      rw [← hmap]
      exact List.mem_map_of_mem _ he
    obtain ⟨e2, he2, heq⟩ := List.mem_map.mp hmem
    have hsrc : e.source = e2.source := by
      have := congrArg LogEvent.source heq
      exact this.symm
    rw [hsrc]
    exact h e2 he2
  obtain ⟨r2, hr2⟩ := getStartEntry_isSome f0 fs
  have hd2 := ofEvents_description_none env m2 f0 fs r2 h2 hr2
  have hm1 := getStartEntry_map (e0 :: es)
  have hm2 := getStartEntry_map (f0 :: fs)
  rw [hmap, hm1, hr, hr2] at hm2
  simp only [Option.map_some', Option.some.injEq, EntryRef.mk.injEq] at hm2
  have hty : r.event.type = r2.event.type := by
    have := congrArg LogEvent.type hm2.2
    exact this
  unfold getDescription
  rw [hd, hd2, hty]

/-- Instance of C10: a global event with params, and the same event without
them. -/
theorem none_source_description_witness :
    (ofEvents exampleEnv 0 ipAddressesChanged []).getDescription =
      some "NETWORK_IP_ADDRESSES_CHANGED" ∧
    (ofEvents exampleEnv 0 ipAddressesChanged.withoutParams []).getDescription =
      (ofEvents exampleEnv 0 ipAddressesChanged []).getDescription :=
  ⟨by decide,
    (none_source_description exampleEnv 0 ipAddressesChanged [] (by decide)).2
      0 ipAddressesChanged.withoutParams [] (by decide)⟩

/-! ## Start entry without params -/

/-- Claim C11, amended.  When the start entry has a source type other than NONE
and has no params, `updateDescription_` returns with the description set to the
empty string, whatever the description was before the call. -/
theorem updateDescription_without_params (env : Env) (s : SourceEntry) (r : EntryRef)
    (hs : getStartEntry_ s.getLogEntries = some r)
    (hsrc : r.event.source.type ≠ EventSourceType.NONE)
    (hp : r.event.params = none) :
    updateDescription_ env s = .returned { s with description_ := some "" } := by
  unfold getLogEntries at hs
  simp only [updateDescription_, hs, hp, if_neg hsrc]

/-- Instance of the amended C11: in the middle of the second `update` of the
connect-job source the start entry is the new event, which has no params. -/
theorem updateDescription_without_params_witness :
    getStartEntry_ connectJobMidUpdate.getLogEntries = some ⟨1, connectJobBeginAgain⟩ ∧
    updateDescription_ exampleEnv connectJobMidUpdate =
      .returned { connectJobMidUpdate with description_ := some "" } :=
  ⟨by decide,
    updateDescription_without_params exampleEnv connectJobMidUpdate
      ⟨1, connectJobBeginAgain⟩ (by decide) (by decide) (by decide)⟩

/-- Counterexample to C11 as stated.  `update(connectJobBeginAgain)` on the
connect-job source calls `updateDescription_` on the state `connectJobMidUpdate`;
there the start entry has source type CONNECT_JOB and no params, the description
before the call is "example.org:80" and after the call it is the empty string. -/
theorem updateDescription_without_params_counterexample :
    update exampleEnv (ofEvents exampleEnv 0 connectJobBegin []) connectJobBeginAgain =
      updateDescription_ exampleEnv connectJobMidUpdate ∧
    getStartEntry_ connectJobMidUpdate.getLogEntries = some ⟨1, connectJobBeginAgain⟩ ∧
    connectJobBeginAgain.source.type ≠ EventSourceType.NONE ∧
    connectJobBeginAgain.params = none ∧
    connectJobMidUpdate.getDescription = some "example.org:80" ∧
    (updateDescription_ exampleEnv connectJobMidUpdate).state.getDescription = some "" ∧
    (updateDescription_ exampleEnv connectJobMidUpdate).state.getDescription ≠
      connectJobMidUpdate.getDescription := by
  decide

/-! ## Raised errors -/

/-- Claim C12, the failing input.  For the well-formed events socket-alive
(UDP_SOCKET source, no params) and udp-connect (with an address), the
constructor returns normally and the following `update` raises: the UDP_SOCKET
case reads `source_dependency` from the undefined params of the first entry. -/
theorem update_raises_when_first_entry_has_no_params :
    (new exampleEnv socketAliveNoParams 0).raised = false ∧
    (update exampleEnv (new exampleEnv socketAliveNoParams 0).state udpConnect).raised = true := by
  decide

/-! ## The description selected by the source type -/

/-- Claim C13.  When the start entry has params, `updateDescription_` returns
with the description set to the field selected by the source type of the start
entry, or to the empty string when that field is undefined: `url` for
URL_REQUEST, SOCKET_STREAM and HTTP_STREAM_JOB, `group_name` for CONNECT_JOB,
`host` for the three HOST_RESOLVER_IMPL types, `key` for DISK_CACHE_ENTRY and
MEMORY_CACHE_ENTRY, `hostname` for ASYNC_HOST_RESOLVER_REQUEST and
DNS_TRANSACTION, `file_name` for FILESTREAM. -/
theorem updateDescription_selected_field (env : Env) (s : SourceEntry) (r : EntryRef)
    (p : Params) (hs : getStartEntry_ s.getLogEntries = some r)
    (hp : r.event.params = some p) :
    ((r.event.source.type = EventSourceType.URL_REQUEST ∨
        r.event.source.type = EventSourceType.SOCKET_STREAM ∨
        r.event.source.type = EventSourceType.HTTP_STREAM_JOB) →
      updateDescription_ env s = .returned { s with description_ := some (p.url.getD "") }) ∧
    (r.event.source.type = EventSourceType.CONNECT_JOB →
      updateDescription_ env s =
        .returned { s with description_ := some (p.group_name.getD "") }) ∧
    ((r.event.source.type = EventSourceType.HOST_RESOLVER_IMPL_REQUEST ∨
        r.event.source.type = EventSourceType.HOST_RESOLVER_IMPL_JOB ∨
        r.event.source.type = EventSourceType.HOST_RESOLVER_IMPL_PROC_TASK) →
      updateDescription_ env s = .returned { s with description_ := some (p.host.getD "") }) ∧
    ((r.event.source.type = EventSourceType.DISK_CACHE_ENTRY ∨
        r.event.source.type = EventSourceType.MEMORY_CACHE_ENTRY) →
      updateDescription_ env s = .returned { s with description_ := some (p.key.getD "") }) ∧
    ((r.event.source.type = EventSourceType.ASYNC_HOST_RESOLVER_REQUEST ∨
        r.event.source.type = EventSourceType.DNS_TRANSACTION) →
      updateDescription_ env s =
        .returned { s with description_ := some (p.hostname.getD "") }) ∧
    (r.event.source.type = EventSourceType.FILESTREAM →
      updateDescription_ env s =
        .returned { s with description_ := some (p.file_name.getD "") }) := by
  unfold getLogEntries at hs
  refine ⟨?_, ?_, ?_, ?_, ?_, ?_⟩
  · rintro (h | h | h) <;>
      simp [updateDescription_, hs, hp, h, normalizeDescription_eq]
  · intro h
    simp [updateDescription_, hs, hp, h, normalizeDescription_eq]
  · rintro (h | h | h) <;>
      simp [updateDescription_, hs, hp, h, normalizeDescription_eq]
  · rintro (h | h) <;>
      simp [updateDescription_, hs, hp, h, normalizeDescription_eq]
  · rintro (h | h) <;>
      simp [updateDescription_, hs, hp, h, normalizeDescription_eq]
  · intro h
    simp [updateDescription_, hs, hp, h, normalizeDescription_eq]

/-- Instance of C13: the host resolver job for "example.com". -/
theorem updateDescription_selected_field_witness :
    updateDescription_ exampleEnv (ofEvents exampleEnv 0 hostResolverJob []) =
      .returned { ofEvents exampleEnv 0 hostResolverJob [] with
        description_ := some ((some "example.com" : Option String).getD "") } :=
  (updateDescription_selected_field exampleEnv (ofEvents exampleEnv 0 hostResolverJob [])
    ⟨0, hostResolverJob⟩ { host := some "example.com" } (by decide) (by decide)).2.2.1
    (Or.inr (Or.inl (by decide)))

/-! ## Description of a SOCKET source -/

/-- Claim C14.  For a SOCKET source whose start entry has params,
`updateDescription_` returns (it never raises) with the description that the
tracker gives for `params.source_dependency.id` when `source_dependency` is
defined, with the empty string when `source_dependency` is absent, and with the
empty string when the tracker, answering as the spec asks, has no entry for
that id. -/
theorem socket_description (env : Env) (s : SourceEntry) (r : EntryRef) (p : Params)
    (hsrc : ∀ e ∈ s.getLogEntries, e.source.type = EventSourceType.SOCKET)
    (hs : getStartEntry_ s.getLogEntries = some r)
    (hp : r.event.params = some p) :
    (∀ (dep : SourceDependency) (D : String), p.source_dependency = some dep →
      env.tracker.getDescription dep.id = some D →
      updateDescription_ env s = .returned { s with description_ := some D }) ∧
    (p.source_dependency = none →
      updateDescription_ env s = .returned { s with description_ := some "" }) ∧
    (∀ dep : SourceDependency, p.source_dependency = some dep →
      TrackerDescribesEntries env.tracker → env.tracker.getSourceEntry dep.id = none →
      updateDescription_ env s = .returned { s with description_ := some "" }) := by
  unfold getLogEntries at hsrc hs
  have hrsrc : r.event.source.type = EventSourceType.SOCKET :=
    hsrc _ (List.getElem?_mem (getStartEntry_valid _ _ hs))
  refine ⟨?_, ?_, ?_⟩
  · intro dep D hdep hD
    simp [updateDescription_, hs, hp, hrsrc, hdep, hD, normalizeDescription_eq]
  · intro hdep
    simp [updateDescription_, hs, hp, hrsrc, hdep, normalizeDescription_eq]
  · intro dep hdep htr hnone
    have h := htr dep.id
    rw [hnone] at h
    simp only [] at h
    rcases h with h | h <;>
      simp [updateDescription_, hs, hp, hrsrc, hdep, h, normalizeDescription_eq]

theorem socketEnv_describes_entries : TrackerDescribesEntries socketEnv.tracker := by
  intro id
  by_cases h : id = 3
  · subst h
    simp [socketEnv]
  · simp [socketEnv, h]

/-- Instance of C14: a socket whose parent is the host resolver job for
"example.com", and a socket whose parent is not registered. -/
theorem socket_description_witness :
    updateDescription_ socketEnv (ofEvents socketEnv 0 socketOfResolver []) =
      .returned { ofEvents socketEnv 0 socketOfResolver [] with
        description_ := some "example.com" } ∧
    updateDescription_ socketEnv (ofEvents socketEnv 0 socketOfUnknownParent []) =
      .returned { ofEvents socketEnv 0 socketOfUnknownParent [] with
        description_ := some "" } :=
  ⟨(socket_description socketEnv (ofEvents socketEnv 0 socketOfResolver [])
      ⟨0, socketOfResolver⟩ { source_dependency := some { id := 3 } }
      (by decide) (by decide) (by decide)).1 { id := 3 } "example.com" (by decide) (by decide),
    (socket_description socketEnv (ofEvents socketEnv 0 socketOfUnknownParent [])
      ⟨0, socketOfUnknownParent⟩ { source_dependency := some { id := 99 } }
      (by decide) (by decide) (by decide)).2.2 { id := 99 } (by decide)
      socketEnv_describes_entries (by decide)⟩

/-! ## Description of an IPV6_PROBE_JOB source -/

/-- Claim C15.  For an IPV6_PROBE_JOB source whose start entry has params, the
description is "IPv6 Supported" when the start entry has type
`IPV6_PROBE_RUNNING`, phase `PHASE_END` and a truthy `ipv6_supported`,
"IPv6 Not Supported" when it has that type and phase and a falsy
`ipv6_supported`, and the empty string in every other case. -/
theorem ipv6_probe_description (env : Env) (s : SourceEntry) (r : EntryRef) (p : Params)
    (hsrc : ∀ e ∈ s.getLogEntries, e.source.type = EventSourceType.IPV6_PROBE_JOB)
    (hs : getStartEntry_ s.getLogEntries = some r)
    (hp : r.event.params = some p) :
    (r.event.type = EventType.IPV6_PROBE_RUNNING → r.event.phase = EventPhase.PHASE_END →
      p.ipv6_supported = some true →
      updateDescription_ env s = .returned { s with description_ := some "IPv6 Supported" }) ∧
    (r.event.type = EventType.IPV6_PROBE_RUNNING → r.event.phase = EventPhase.PHASE_END →
      p.ipv6_supported ≠ some true →
      updateDescription_ env s =
        .returned { s with description_ := some "IPv6 Not Supported" }) ∧
    (¬ (r.event.type = EventType.IPV6_PROBE_RUNNING ∧ r.event.phase = EventPhase.PHASE_END) →
      updateDescription_ env s = .returned { s with description_ := some "" }) := by
  unfold getLogEntries at hsrc hs
  have hrsrc : r.event.source.type = EventSourceType.IPV6_PROBE_JOB :=
    hsrc _ (List.getElem?_mem (getStartEntry_valid _ _ hs))
  refine ⟨?_, ?_, ?_⟩
  · intro ht hph hv
    simp [updateDescription_, hs, hp, hrsrc, ht, hph, hv, normalizeDescription_eq]
  · intro ht hph hv
    simp [updateDescription_, hs, hp, hrsrc, ht, hph, hv, normalizeDescription_eq]
  · intro hn
    simp [updateDescription_, hs, hp, hrsrc, hn, normalizeDescription_eq]

/-- Instance of C15: the probe of an IPv6 probe job ends and reports support. -/
theorem ipv6_probe_description_witness :
    (ofEvents exampleEnv 0 ipv6ProbeJob [ipv6ProbeRunningEnd]).getDescription =
      some "IPv6 Supported" ∧
    updateDescription_ exampleEnv (ofEvents exampleEnv 0 ipv6ProbeJob [ipv6ProbeRunningEnd]) =
      .returned { ofEvents exampleEnv 0 ipv6ProbeJob [ipv6ProbeRunningEnd] with
        description_ := some "IPv6 Supported" } :=
  ⟨by decide,
    (ipv6_probe_description exampleEnv (ofEvents exampleEnv 0 ipv6ProbeJob [ipv6ProbeRunningEnd])
      ⟨1, ipv6ProbeRunningEnd⟩ { ipv6_supported := some true }
      (by decide) (by decide) (by decide)).1 (by decide) (by decide) (by decide)⟩

/-! ## Whether the description is a string -/

/-- Claim C16, the failing input.  For a single event with source type NONE
whose type has no entry in `EventTypeNames`, `getDescription()` is `undefined`
after construction: the NONE case returns before the final statement that
replaces `undefined` by the empty string. -/
theorem description_undefined_for_unnamed_global_event :
    exampleEnv.EventTypeNames unnamedGlobalEvent.type = none ∧
    (new exampleEnv unnamedGlobalEvent 0).raised = false ∧
    (ofEvents exampleEnv 0 unnamedGlobalEvent []).getDescription = none := by
  decide

/-- Outside the NONE case the description left by `updateDescription_` is a
string. -/
theorem updateDescription_isSome_of_not_none (env : Env) (s : SourceEntry)
    (h : ∀ r, getStartEntry_ s.entries_ = some r →
      r.event.source.type ≠ EventSourceType.NONE) :
    ∃ d : String, (updateDescription_ env s).state.description_ = some d := by
  cases hs : getStartEntry_ s.entries_ with
  | none => exact ⟨"", by simp [updateDescription_, hs, Outcome.state]⟩
  | some r =>
    have hne := h r hs
    simp only [updateDescription_, hs, if_neg hne, describeUdpSocket, normalizeDescription_eq]
    repeat' split
    all_goals exact ⟨_, rfl⟩

/-- A source type that the switch of `updateDescription_` does not handle gets
the empty string. -/
theorem updateDescription_unhandled_source_type (env : Env) (s : SourceEntry) (r : EntryRef)
    (n : Nat) (hs : getStartEntry_ s.entries_ = some r)
    (hsrc : r.event.source.type = EventSourceType.OTHER n) :
    updateDescription_ env s = .returned { s with description_ := some "" } := by
  cases hp : r.event.params with
  | none => simp [updateDescription_, hs, hp, hsrc]
  | some p => simp [updateDescription_, hs, hp, hsrc, normalizeDescription_eq]

/-! ## End time and duration -/

/-- Claim C17.  For an object whose first entry is `first` and whose last entry
is `last`: `getEndTime()` is the current time of the time collaborator when
`isInactive()` is false and `convertTimeTicksToTime(last.time)` when it is true;
`getDuration()` is `getEndTime()` minus `convertTimeTicksToTime(first.time)`;
and an inactive object with exactly one entry has duration 0. -/
theorem getEndTime_getDuration (timeutil : TimeUtil) (s : SourceEntry)
    (first last : LogEvent)
    (hfirst : s.getLogEntries[0]? = some first)
    (hlast : s.getLogEntries.getLast? = some last) :
    (s.isInactive = false → getEndTime timeutil s = some timeutil.getCurrentTime) ∧
    (s.isInactive = true →
      getEndTime timeutil s = some (timeutil.convertTimeTicksToTime last.time)) ∧
    (∃ endTime, getEndTime timeutil s = some endTime ∧
      getDuration timeutil s =
        some (endTime - timeutil.convertTimeTicksToTime first.time)) ∧
    (s.isInactive = true → s.getLogEntries = [first] → getDuration timeutil s = some 0) := by
  unfold getLogEntries at hfirst hlast
  unfold isInactive
  rw [List.getLast?_eq_getElem?] at hlast
  have hend : ∃ endTime, getEndTime timeutil s = some endTime := by
    unfold getEndTime
    split
    · exact ⟨_, rfl⟩
    · exact ⟨_, by rw [hlast]; rfl⟩
  have hact : s.isInactive_ = false → getEndTime timeutil s = some timeutil.getCurrentTime := by
    intro h
    simp [getEndTime, h]
  have hin : s.isInactive_ = true →
      getEndTime timeutil s = some (timeutil.convertTimeTicksToTime last.time) := by
    intro h
    simp [getEndTime, h, hlast]
  have hdur : ∃ endTime, getEndTime timeutil s = some endTime ∧
      getDuration timeutil s =
        some (endTime - timeutil.convertTimeTicksToTime first.time) := by
    obtain ⟨endTime, he⟩ := hend
    exact ⟨endTime, he, by simp [getDuration, hfirst, he]⟩
  refine ⟨hact, hin, hdur, ?_⟩
  intro h hone
  have hone2 : s.entries_ = [first] := hone
  rw [hone2] at hlast
  simp only [List.length_singleton, Nat.sub_self, List.getElem?_cons_zero,
    Option.some.injEq] at hlast
  obtain ⟨endTime, he, hd⟩ := hdur
  rw [hin h, ← hlast] at he
  rw [hd, ← Option.some.inj he]
  simp

/-- Instance of C17: a connect job that has ended. -/
theorem getEndTime_getDuration_witness :
    getEndTime exampleTimeUtil (ofEvents exampleEnv 0 connectJobBegin [connectJobEndFailed]) =
      some 525 ∧
    getDuration exampleTimeUtil (ofEvents exampleEnv 0 connectJobBegin [connectJobEndFailed]) =
      some 15 :=
  have h := getEndTime_getDuration exampleTimeUtil
    (ofEvents exampleEnv 0 connectJobBegin [connectJobEndFailed])
    connectJobBegin connectJobEndFailed (by decide) (by decide)
  ⟨h.2.1 (by decide), by
    obtain ⟨endTime, he, hd⟩ := h.2.2.1
    rw [h.2.1 (by decide)] at he
    rw [hd, ← Option.some.inj he]
    decide⟩

/-! ## Idempotence of the description update -/

/-- Claim C18.  Calling `updateDescription_` twice in a row, with the same
globals and no `update` in between, leaves the same description as calling it
once. -/
theorem updateDescription_twice (env : Env) (s : SourceEntry) :
    (updateDescription_ env (updateDescription_ env s).state).state.getDescription =
      (updateDescription_ env s).state.getDescription := by
  unfold getDescription
  rw [updateDescription_idempotent]

/-! ## The lookups by type, in terms of indices -/

theorem findLogEntryByTypeFrom_first (type : EventType) (entries : List LogEvent) :
    ∀ (i k : Nat) (e : LogEvent), entries[k]? = some e → e.type = type →
      (∀ j f, j < k → entries[j]? = some f → f.type ≠ type) →
      findLogEntryByTypeFrom type entries i = some ⟨i + k, e⟩ := by
  induction entries with
  | nil => intro i k e hk; simp at hk
  | cons x rest ih =>
    intro i k e hk hty hmin
    unfold findLogEntryByTypeFrom
    cases k with
    | zero =>
      simp only [List.getElem?_cons_zero, Option.some.injEq] at hk
      subst hk
      rw [if_pos hty]
      rfl
    | succ k =>
      have hx : x.type ≠ type := hmin 0 x (by omega) (by simp)
      rw [if_neg hx]
      simp only [List.getElem?_cons_succ] at hk
      rw [ih (i + 1) k e hk hty
        (fun j f hj hf => hmin (j + 1) f (by omega) (by simpa using hf))]
      congr 2
      omega

theorem findLogEntryByTypeFrom_none (type : EventType) (entries : List LogEvent) :
    ∀ i : Nat, (∀ f ∈ entries, f.type ≠ type) →
      findLogEntryByTypeFrom type entries i = none := by
  induction entries with
  | nil => intro i _; rfl
  | cons x rest ih =>
    intro i h
    unfold findLogEntryByTypeFrom
    rw [if_neg (h x (by simp))]
    exact ih (i + 1) (fun f hf => h f (List.mem_cons_of_mem _ hf))

theorem findLastLogEntryStartByTypeFrom_none (type : EventType) (entries : List LogEvent) :
    ∀ i : Nat, (∀ f ∈ entries, ¬ (f.type = type ∧ f.phase ≠ EventPhase.PHASE_END)) →
      findLastLogEntryStartByTypeFrom type entries i = none := by
  induction entries with
  | nil => intro i _; rfl
  | cons x rest ih =>
    intro i h
    unfold findLastLogEntryStartByTypeFrom
    rw [ih (i + 1) (fun f hf => h f (List.mem_cons_of_mem _ hf))]
    simp only []
    rw [if_neg (h x (by simp))]

theorem findLastLogEntryStartByTypeFrom_last (type : EventType) (entries : List LogEvent) :
    ∀ (i k : Nat) (e : LogEvent), entries[k]? = some e → e.type = type →
      e.phase ≠ EventPhase.PHASE_END →
      (∀ j f, k < j → entries[j]? = some f →
        ¬ (f.type = type ∧ f.phase ≠ EventPhase.PHASE_END)) →
      findLastLogEntryStartByTypeFrom type entries i = some ⟨i + k, e⟩ := by
  induction entries with
  | nil => intro i k e hk; simp at hk
  | cons x rest ih =>
    intro i k e hk hty hph hmax
    unfold findLastLogEntryStartByTypeFrom
    cases k with
    | zero =>
      simp only [List.getElem?_cons_zero, Option.some.injEq] at hk
      subst hk
      have hnone : findLastLogEntryStartByTypeFrom type rest (i + 1) = none := by
        apply findLastLogEntryStartByTypeFrom_none
        intro f hf
        obtain ⟨j, hj⟩ := List.mem_iff_getElem?.mp hf
        exact hmax (j + 1) f (by omega) (by simpa using hj)
      rw [hnone]
      simp only []
      rw [if_pos ⟨hty, hph⟩]
      rfl
    | succ k =>
      simp only [List.getElem?_cons_succ] at hk
      rw [ih (i + 1) k e hk hty hph
        (fun j f hj hf => hmax (j + 1) f (by omega) (by simpa using hf))]
      simp only [Option.some.injEq, EntryRef.mk.injEq, and_true]
      omega

/-! ## Start entry of DOWNLOAD and FILESTREAM sources -/

/-- Claim C23.  For a non-empty entries list whose first entry has source type
DOWNLOAD, `getStartEntry_` returns the `DOWNLOAD_FILE_RENAMED` entry with a
phase other than `PHASE_END` that has the greatest index, if there is one;
otherwise the `DOWNLOAD_FILE_OPENED` entry with the smallest index, if there is
one; otherwise the `DOWNLOAD_ITEM_ACTIVE` entry with the smallest index, if
there is one. -/
theorem getStartEntry_download (e0 : LogEvent) (rest : List LogEvent)
    (h0 : e0.source.type = EventSourceType.DOWNLOAD) :
    (∀ i e, (e0 :: rest)[i]? = some e → e.type = EventType.DOWNLOAD_FILE_RENAMED →
      e.phase ≠ EventPhase.PHASE_END →
      (∀ j f, i < j → (e0 :: rest)[j]? = some f →
        ¬ (f.type = EventType.DOWNLOAD_FILE_RENAMED ∧ f.phase ≠ EventPhase.PHASE_END)) →
      getStartEntry_ (e0 :: rest) = some ⟨i, e⟩) ∧
    ((∀ f ∈ e0 :: rest,
        ¬ (f.type = EventType.DOWNLOAD_FILE_RENAMED ∧ f.phase ≠ EventPhase.PHASE_END)) →
      ∀ i e, (e0 :: rest)[i]? = some e → e.type = EventType.DOWNLOAD_FILE_OPENED →
      (∀ j f, j < i → (e0 :: rest)[j]? = some f → f.type ≠ EventType.DOWNLOAD_FILE_OPENED) →
      getStartEntry_ (e0 :: rest) = some ⟨i, e⟩) ∧
    ((∀ f ∈ e0 :: rest,
        ¬ (f.type = EventType.DOWNLOAD_FILE_RENAMED ∧ f.phase ≠ EventPhase.PHASE_END)) →
      (∀ f ∈ e0 :: rest, f.type ≠ EventType.DOWNLOAD_FILE_OPENED) →
      ∀ i e, (e0 :: rest)[i]? = some e → e.type = EventType.DOWNLOAD_ITEM_ACTIVE →
      (∀ j f, j < i → (e0 :: rest)[j]? = some f → f.type ≠ EventType.DOWNLOAD_ITEM_ACTIVE) →
      getStartEntry_ (e0 :: rest) = some ⟨i, e⟩) := by
  have hnf : e0.source.type ≠ EventSourceType.FILESTREAM := by rw [h0]; decide
  refine ⟨?_, ?_, ?_⟩
  · intro i e hi hty hph hmax
    have h := findLastLogEntryStartByTypeFrom_last _ (e0 :: rest) 0 i e hi hty hph hmax
    simp only [Nat.zero_add] at h
    unfold getStartEntry_
    simp [hnf, h0, findLastLogEntryStartByType_, h]
  · intro hnone i e hi hty hmin
    have h1 := findLastLogEntryStartByTypeFrom_none EventType.DOWNLOAD_FILE_RENAMED
      (e0 :: rest) 0 hnone
    have h2 := findLogEntryByTypeFrom_first _ (e0 :: rest) 0 i e hi hty hmin
    simp only [Nat.zero_add] at h2
    unfold getStartEntry_
    simp [hnf, h0, findLastLogEntryStartByType_, findLogEntryByType_, h1, h2]
  · intro hnone hnoopen i e hi hty hmin
    have h1 := findLastLogEntryStartByTypeFrom_none EventType.DOWNLOAD_FILE_RENAMED
      (e0 :: rest) 0 hnone
    have h2 := findLogEntryByTypeFrom_none EventType.DOWNLOAD_FILE_OPENED
      (e0 :: rest) 0 hnoopen
    have h3 := findLogEntryByTypeFrom_first _ (e0 :: rest) 0 i e hi hty hmin
    simp only [Nat.zero_add] at h3
    unfold getStartEntry_
    simp [hnf, h0, findLastLogEntryStartByType_, findLogEntryByType_, h1, h2, h3]

/-- Instance of C23: item-active, file-opened, rename started, rename ended;
the start entry is the started rename at index 2. -/
theorem getStartEntry_download_witness :
    getStartEntry_ [downloadItemActive, downloadFileOpened, downloadFileRenamedBegin,
      downloadFileRenamedEnd] = some ⟨2, downloadFileRenamedBegin⟩ :=
  (getStartEntry_download downloadItemActive
    [downloadFileOpened, downloadFileRenamedBegin, downloadFileRenamedEnd] (by decide)).1
    2 downloadFileRenamedBegin (by decide) (by decide) (by decide)
    (by
      intro j f hj hf
      have hlt : j < 4 := by
        by_contra hge
        rw [List.getElem?_eq_none (by simpa using hge)] at hf
        exact absurd hf (by simp)
      have h3 : j = 3 := by omega
      subst h3
      simp only [List.getElem?_cons_succ, List.getElem?_cons_zero, Option.some.injEq] at hf
      subst hf
      decide)

/-- Claim C24.  For a non-empty entries list whose first entry has source type
FILESTREAM and that holds an entry of type `FILE_STREAM_OPEN`, `getStartEntry_`
returns the one with the smallest index, whatever the types of the first two
entries. -/
theorem getStartEntry_filestream (e0 : LogEvent) (rest : List LogEvent)
    (h0 : e0.source.type = EventSourceType.FILESTREAM) (i : Nat) (e : LogEvent)
    (hi : (e0 :: rest)[i]? = some e) (hty : e.type = EventType.FILE_STREAM_OPEN)
    (hmin : ∀ j f, j < i → (e0 :: rest)[j]? = some f →
      f.type ≠ EventType.FILE_STREAM_OPEN) :
    getStartEntry_ (e0 :: rest) = some ⟨i, e⟩ := by
  have h := findLogEntryByTypeFrom_first _ (e0 :: rest) 0 i e hi hty hmin
  simp only [Nat.zero_add] at h
  unfold getStartEntry_
  simp [h0, findLogEntryByType_, h]

/-- Instance of C24: the stream becomes alive, then the file is opened. -/
theorem getStartEntry_filestream_witness :
    getStartEntry_ [fileStreamAlive, fileStreamOpen] = some ⟨1, fileStreamOpen⟩ :=
  getStartEntry_filestream fileStreamAlive [fileStreamOpen] (by decide) 1 fileStreamOpen
    (by decide) (by decide)
    (by
      intro j f hj hf
      have h0 : j = 0 := by omega
      subst h0
      simp only [List.getElem?_cons_zero, Option.some.injEq] at hf
      subst hf
      decide)

/-! ## Start entry by position -/

/-- Claim C25.  For a non-empty entries list of a source that is neither
FILESTREAM nor DOWNLOAD: with at least two entries and the first of type
`SOCKET_POOL_CONNECT_JOB` or the second of type `UDP_CONNECT`, `getStartEntry_`
returns the second entry, also when the first has type `REQUEST_ALIVE`;
otherwise, when the first entry is not of type `REQUEST_ALIVE`, it returns the
second entry if there is one of type `IPV6_PROBE_RUNNING`, and the first entry
in every remaining case. -/
theorem getStartEntry_by_position (e0 : LogEvent) (rest : List LogEvent)
    (hf : e0.source.type ≠ EventSourceType.FILESTREAM)
    (hd : e0.source.type ≠ EventSourceType.DOWNLOAD) :
    (∀ e1 rest2, rest = e1 :: rest2 →
      (e0.type = EventType.SOCKET_POOL_CONNECT_JOB ∨ e1.type = EventType.UDP_CONNECT) →
      getStartEntry_ (e0 :: rest) = some ⟨1, e1⟩) ∧
    (∀ e1 rest2, rest = e1 :: rest2 →
      ¬ (e0.type = EventType.SOCKET_POOL_CONNECT_JOB ∨ e1.type = EventType.UDP_CONNECT) →
      e0.type ≠ EventType.REQUEST_ALIVE → e1.type = EventType.IPV6_PROBE_RUNNING →
      getStartEntry_ (e0 :: rest) = some ⟨1, e1⟩) ∧
    (∀ e1 rest2, rest = e1 :: rest2 →
      ¬ (e0.type = EventType.SOCKET_POOL_CONNECT_JOB ∨ e1.type = EventType.UDP_CONNECT) →
      e0.type ≠ EventType.REQUEST_ALIVE → e1.type ≠ EventType.IPV6_PROBE_RUNNING →
      getStartEntry_ (e0 :: rest) = some ⟨0, e0⟩) ∧
    (rest = [] → e0.type ≠ EventType.REQUEST_ALIVE →
      getStartEntry_ (e0 :: rest) = some ⟨0, e0⟩) := by
  rw [getStartEntry_of_not_special e0 rest hf hd]
  refine ⟨?_, ?_, ?_, ?_⟩
  · intro e1 rest2 hr hc
    subst hr
    unfold getStartEntryByPosition
    simp only [if_pos hc]
    simp [entryAt]
  · intro e1 rest2 hr hc hna hip
    subst hr
    unfold getStartEntryByPosition
    simp only [if_neg hc, if_neg hna, if_pos hip]
    simp [entryAt]
  · intro e1 rest2 hr hc hna hip
    subst hr
    unfold getStartEntryByPosition
    simp only [if_neg hc, if_neg hna, if_neg hip]
    simp [entryAt]
  · intro hr _
    subst hr
    rfl

/-- Instance of C25: a connect job of the socket pool; the start entry is the
second entry. -/
theorem getStartEntry_by_position_witness :
    getStartEntry_ [connectJobBegin, connectJobEndFailed] = some ⟨1, connectJobEndFailed⟩ :=
  (getStartEntry_by_position connectJobBegin [connectJobEndFailed] (by decide) (by decide)).1
    connectJobEndFailed [] rfl (Or.inl (by decide))

/-! ## When the description is recomputed -/

/-- Claim C26.  If the start entry after appending the event is the same entry
(the entry at the same position) as the start entry before appending it, then
`update(event)` leaves `getDescription()` unchanged. -/
theorem update_description_unchanged (env : Env) (s : SourceEntry) (e : LogEvent)
    (h : (getStartEntry_ s.getLogEntries).map (fun r => r.index) =
      (getStartEntry_ (s.getLogEntries ++ [e])).map (fun r => r.index)) :
    (update env s e).state.getDescription = s.getDescription := by
  unfold getLogEntries at h
  unfold getDescription
  cases hu : updateInactive s e with
  | threw s1 => rw [update_of_threw env s s1 e hu]; rfl
  | returned s1 =>
    have hs1 : s1 = { s with isInactive_ := s1.isInactive_ } := by
      have := updateInactive_frame s e
      rw [hu] at this
      exact this
    unfold update
    rw [hu]
    simp only []
    have hfr := updateError_frame env s1 e
    generalize updateError env s1 e = u at hfr
    have hue : u.entries_ = s.entries_ := by rw [hfr, hs1]
    have hud : u.description_ = s.description_ := by rw [hfr, hs1]
    rw [hue, if_neg (by simpa using h)]
    exact hud

/-- Instance of C26: after the connect job has ended, a further event leaves
the start entry at index 1 and the description as it was. -/
theorem update_description_unchanged_witness :
    (getStartEntry_
        (ofEvents exampleEnv 0 connectJobBegin [connectJobEndFailed]).getLogEntries).map
        (fun r => r.index) =
      (getStartEntry_
        ((ofEvents exampleEnv 0 connectJobBegin [connectJobEndFailed]).getLogEntries ++
          [connectJobBeginAgain])).map (fun r => r.index) ∧
    (update exampleEnv (ofEvents exampleEnv 0 connectJobBegin [connectJobEndFailed])
        connectJobBeginAgain).state.getDescription =
      (ofEvents exampleEnv 0 connectJobBegin [connectJobEndFailed]).getDescription :=
  ⟨by decide,
    update_description_unchanged exampleEnv
      (ofEvents exampleEnv 0 connectJobBegin [connectJobEndFailed]) connectJobBeginAgain
      (by decide)⟩

/-- Claim C28.  After constructing the object and applying every update, with
the same globals throughout, `getDescription()` is the description that
`updateDescription_` computes afresh from the current entries. -/
theorem description_never_stale (env : Env) (m : Int) (e0 : LogEvent) (es : List LogEvent) :
    (ofEvents env m e0 es).getDescription =
      (updateDescription_ env (ofEvents env m e0 es)).state.getDescription := by
  rw [ofEvents_fresh]

/-! ## The start entry is an element of the list -/

theorem skipBlockedOnDelegate_exit (entries : List LogEvent) :
    ∀ (fuel start : Nat), entries.length - start ≤ fuel →
      ¬ (skipBlockedOnDelegate entries fuel start + 1 < entries.length ∧
        (entries[skipBlockedOnDelegate entries fuel start]?).map (fun e => e.type) =
          some EventType.URL_REQUEST_BLOCKED_ON_DELEGATE) := by
  intro fuel
  induction fuel with
  | zero =>
    intro start h
    unfold skipBlockedOnDelegate
    intro hc
    omega
  | succ fuel ih =>
    intro start h
    unfold skipBlockedOnDelegate
    split
    · exact ih (start + 1) (by omega)
    · assumption

theorem skipBlockedOnDelegate_fuel (entries : List LogEvent) :
    ∀ (fuel1 fuel2 start : Nat), entries.length - start ≤ fuel1 →
      entries.length - start ≤ fuel2 →
      skipBlockedOnDelegate entries fuel1 start = skipBlockedOnDelegate entries fuel2 start := by
  intro fuel1
  induction fuel1 with
  | zero =>
    intro fuel2 start h1 _
    cases fuel2 with
    | zero => rfl
    | succ fuel2 =>
      unfold skipBlockedOnDelegate
      rw [if_neg (by omega)]
  | succ fuel1 ih =>
    intro fuel2 start h1 h2
    cases fuel2 with
    | zero =>
      unfold skipBlockedOnDelegate
      rw [if_neg (by omega)]
    | succ fuel2 =>
      unfold skipBlockedOnDelegate
      split
      · exact ih fuel2 (start + 1) (by omega) (by omega)
      · rfl

/-- Claim C29.  For a non-empty entries list `getStartEntry_` returns an
element of the list (the entry at the returned index) and never `undefined`; the
skip loop after `REQUEST_ALIVE` ends by itself at an index within bounds, and
more iterations do not change it; for a list with exactly one entry that entry
is returned, whatever the source type. -/
theorem getStartEntry_in_bounds (e0 : LogEvent) (rest : List LogEvent) :
    (∃ r, getStartEntry_ (e0 :: rest) = some r ∧ r.index < (e0 :: rest).length ∧
      (e0 :: rest)[r.index]? = some r.event ∧ r.event ∈ e0 :: rest) ∧
    (rest ≠ [] →
      skipBlockedOnDelegate (e0 :: rest) (e0 :: rest).length 1 < (e0 :: rest).length ∧
      ¬ (skipBlockedOnDelegate (e0 :: rest) (e0 :: rest).length 1 + 1 < (e0 :: rest).length ∧
        ((e0 :: rest)[skipBlockedOnDelegate (e0 :: rest) (e0 :: rest).length 1]?).map
          (fun e => e.type) = some EventType.URL_REQUEST_BLOCKED_ON_DELEGATE) ∧
      ∀ fuel, (e0 :: rest).length ≤ fuel →
        skipBlockedOnDelegate (e0 :: rest) fuel 1 =
          skipBlockedOnDelegate (e0 :: rest) (e0 :: rest).length 1) ∧
    (rest = [] → getStartEntry_ (e0 :: rest) = some ⟨0, e0⟩) := by
  refine ⟨?_, ?_, ?_⟩
  · obtain ⟨r, hr⟩ := getStartEntry_isSome e0 rest
    have hv := getStartEntry_valid _ _ hr
    refine ⟨r, hr, ?_, hv, List.getElem?_mem hv⟩
    by_contra hge
    rw [List.getElem?_eq_none (by omega)] at hv
    exact absurd hv (by simp)
  · intro hne
    have hlen : 1 < (e0 :: rest).length := by
      cases rest with
      | nil => exact absurd rfl hne
      | cons e1 rest2 => simp
    refine ⟨skipBlockedOnDelegate_lt _ _ 1 hlen,
      skipBlockedOnDelegate_exit _ _ 1 (by omega), ?_⟩
    intro fuel hfuel
    exact skipBlockedOnDelegate_fuel _ _ _ 1 (by omega) (by omega)
  · intro hr
    subst hr
    obtain ⟨r, hr⟩ := getStartEntry_isSome e0 []
    have hv := getStartEntry_valid _ _ hr
    have hidx : r.index = 0 := by
      by_contra hne
      rw [List.getElem?_eq_none (by simp; omega)] at hv
      exact absurd hv (by simp)
    rw [hr]
    cases r with
    | mk idx ev =>
      simp only [] at hidx hv
      subst hidx
      simp only [List.getElem?_cons_zero, Option.some.injEq] at hv
      rw [hv]

/-- Instance of C29: a request that stays blocked on the delegate; the loop
stops at the last index. -/
theorem getStartEntry_in_bounds_witness :
    skipBlockedOnDelegate [requestAlive, blockedOnDelegate, blockedOnDelegate] 3 1 = 2 ∧
    ∀ fuel, 3 ≤ fuel →
      skipBlockedOnDelegate [requestAlive, blockedOnDelegate, blockedOnDelegate] fuel 1 =
        skipBlockedOnDelegate [requestAlive, blockedOnDelegate, blockedOnDelegate] 3 1 :=
  ⟨by decide,
    ((getStartEntry_in_bounds requestAlive [blockedOnDelegate, blockedOnDelegate]).2.1
      (by decide)).2.2⟩

/-! ## Start entry when the request stays blocked -/

theorem skipBlockedOnDelegate_all_blocked (entries : List LogEvent) :
    ∀ (fuel start : Nat), start < entries.length → entries.length - 1 - start ≤ fuel →
      (∀ i, start ≤ i → i < entries.length →
        (entries[i]?).map (fun e => e.type) = some EventType.URL_REQUEST_BLOCKED_ON_DELEGATE) →
      skipBlockedOnDelegate entries fuel start = entries.length - 1 := by
  intro fuel
  induction fuel with
  | zero =>
    intro start h1 h2 _
    unfold skipBlockedOnDelegate
    omega
  | succ fuel ih =>
    intro start h1 h2 hall
    unfold skipBlockedOnDelegate
    by_cases hlast : start + 1 < entries.length
    · rw [if_pos ⟨hlast, hall start (le_refl _) h1⟩]
      exact ih (start + 1) hlast (by omega) (fun i hi1 hi2 => hall i (by omega) hi2)
    · rw [if_neg (fun hc => hlast hc.1)]
      omega

/-- Claim C30.  For an entries list of a source that is neither FILESTREAM nor
DOWNLOAD, with at least two entries, the first of type `REQUEST_ALIVE` and every
later entry of type `URL_REQUEST_BLOCKED_ON_DELEGATE`, `getStartEntry_` returns
the last entry of the list, not the first. -/
theorem getStartEntry_all_blocked (e0 e1 : LogEvent) (rest : List LogEvent)
    (hf : e0.source.type ≠ EventSourceType.FILESTREAM)
    (hd : e0.source.type ≠ EventSourceType.DOWNLOAD)
    (h0 : e0.type = EventType.REQUEST_ALIVE) (h1 : e1.type ≠ EventType.UDP_CONNECT)
    (hall : ∀ f ∈ e1 :: rest, f.type = EventType.URL_REQUEST_BLOCKED_ON_DELEGATE) :
    ∃ last, (e0 :: e1 :: rest).getLast? = some last ∧
      getStartEntry_ (e0 :: e1 :: rest) = some ⟨(e0 :: e1 :: rest).length - 1, last⟩ ∧
      last.type = EventType.URL_REQUEST_BLOCKED_ON_DELEGATE ∧
      (e0 :: e1 :: rest).length - 1 ≠ 0 := by
  have hskip : skipBlockedOnDelegate (e0 :: e1 :: rest) (e0 :: e1 :: rest).length 1 =
      (e0 :: e1 :: rest).length - 1 := by
    apply skipBlockedOnDelegate_all_blocked _ _ 1 (by simp) (by omega)
    intro i hi1 hi2
    have hget : (e0 :: e1 :: rest)[i]? = some ((e0 :: e1 :: rest)[i]) :=
      List.getElem?_eq_getElem hi2
    rw [hget]
    simp only [Option.map_some', Option.some.injEq]
    apply hall
    obtain ⟨k, rfl⟩ : ∃ k, i = k + 1 := ⟨i - 1, by omega⟩
    simp only [List.getElem_cons_succ]
    exact List.getElem_mem _
  have hlastidx : (e0 :: e1 :: rest).getLast? =
      (e0 :: e1 :: rest)[(e0 :: e1 :: rest).length - 1]? := List.getLast?_eq_getElem? _
  obtain ⟨last, hlast⟩ : ∃ last, (e0 :: e1 :: rest).getLast? = some last := by
    cases h : (e0 :: e1 :: rest).getLast? with
    | none => simp at h
    | some l => exact ⟨l, rfl⟩
  refine ⟨last, hlast, ?_, ?_, by simp⟩
  · have hentry : entryAt (e0 :: e1 :: rest) ((e0 :: e1 :: rest).length - 1) =
        some ⟨(e0 :: e1 :: rest).length - 1, last⟩ := by
      unfold entryAt
      rw [← hlastidx, hlast]
      rfl
    rw [getStartEntry_of_not_special e0 _ hf hd]
    unfold getStartEntryByPosition
    simp only [h0, h1, or_false, if_true, hskip, hentry, reduceCtorEq, if_false]
  · apply hall
    have hm := List.mem_of_getLast?_eq_some hlast
    have : (e0 :: e1 :: rest).getLast? = (e1 :: rest).getLast? := by simp
    rw [this] at hlast
    exact List.mem_of_getLast?_eq_some hlast

/-- Instance of C30: request-alive followed by two blocked-on-delegate events;
the start entry is the third event. -/
theorem getStartEntry_all_blocked_witness :
    getStartEntry_ [requestAlive, blockedOnDelegate, blockedOnDelegate] =
      some ⟨2, blockedOnDelegate⟩ := by
  obtain ⟨last, hl, hs, _, _⟩ := getStartEntry_all_blocked requestAlive blockedOnDelegate
    [blockedOnDelegate] (by decide) (by decide) (by decide) (by decide) (by decide)
  have : last = blockedOnDelegate := by
    have h2 : [requestAlive, blockedOnDelegate, blockedOnDelegate].getLast? =
        some blockedOnDelegate := by decide
    rw [h2] at hl
    exact (Option.some.inj hl).symm
  rw [hs, this]
  rfl

end SourceEntry

/-! ## ProxyView: the latest proxy resolver source -/

namespace ProxyView

/-- Claim C20, the failing input.  For the single INIT_PROXY_RESOLVER entry
with id 9 and the starting id 0, `onSourceEntriesUpdated` stores the id 9, but
the element does not get the log text of that entry: `printAsText()` has no
`return` statement, so `innerText` is assigned `undefined` when the call
returns, and when `printLogEntriesAsText` raises for the missing parent the
method raises and the element keeps its old text. -/
theorem onSourceEntriesUpdated_text_undefined :
    onSourceEntriesUpdated printingGlobals exampleView [proxyResolverEntry 9] =
      .returned { latestProxySourceId_ := 9, proxyResolverLogText := none } ∧
    onSourceEntriesUpdated raisingGlobals exampleView [proxyResolverEntry 9] =
      .raised { latestProxySourceId_ := 9, proxyResolverLogText := some "old log" } := by
  decide

theorem onSourceEntryUpdated_text (globals : ProxyGlobals) (self : ProxyView)
    (sourceEntry : SourceEntry) :
    (onSourceEntryUpdated globals self sourceEntry).state.proxyResolverLogText =
        self.proxyResolverLogText ∨
      (onSourceEntryUpdated globals self sourceEntry).state.proxyResolverLogText = none := by
  unfold onSourceEntryUpdated
  repeat' split
  all_goals first
    | (left; rfl)
    | (right; rfl)

/-- Whatever the globals and the list, the value assigned to `innerText` is
never a log text: after the call the element has the value it had before, or
`undefined`. -/
theorem onSourceEntriesUpdated_text (globals : ProxyGlobals) (self : ProxyView)
    (sourceEntries : List SourceEntry) :
    (onSourceEntriesUpdated globals self sourceEntries).state.proxyResolverLogText =
        self.proxyResolverLogText ∨
      (onSourceEntriesUpdated globals self sourceEntries).state.proxyResolverLogText = none := by
  induction sourceEntries with
  | nil => left; rfl
  | cons x rest ih =>
    unfold onSourceEntriesUpdated
    cases h : onSourceEntriesUpdated globals self rest with
    | raised s =>
      rw [h] at ih
      exact ih
    | returned s =>
      rw [h] at ih
      simp only [ProxyOutcome.state] at ih
      show (onSourceEntryUpdated globals s x).state.proxyResolverLogText =
          self.proxyResolverLogText ∨
        (onSourceEntryUpdated globals s x).state.proxyResolverLogText = none
      rcases onSourceEntryUpdated_text globals s x with h1 | h1
      · rw [h1]
        exact ih
      · right
        exact h1

/-- The part of C20 about the id: when no call of `printAsText()` raises, the
method returns and `latestProxySourceId_` is the maximum of its starting value
and the ids of the INIT_PROXY_RESOLVER entries of the list. -/
theorem onSourceEntriesUpdated_latest_id (globals : ProxyGlobals) (self : ProxyView)
    (sourceEntries : List SourceEntry)
    (hprint : ∀ s ∈ sourceEntries, globals.printLogEntriesAsText s.getLogEntries none = true)
    (hne : ∀ s ∈ sourceEntries, s.getLogEntries ≠ []) :
    ∃ view, onSourceEntriesUpdated globals self sourceEntries = .returned view ∧
      view.latestProxySourceId_ =
        (initProxyResolverIds globals sourceEntries).foldr max self.latestProxySourceId_ := by
  induction sourceEntries with
  | nil => exact ⟨self, rfl, rfl⟩
  | cons x rest ih =>
    obtain ⟨view, hv, hid⟩ := ih (fun s hs => hprint s (List.mem_cons_of_mem _ hs))
      (fun s hs => hne s (List.mem_cons_of_mem _ hs))
    have hx := hne x (List.mem_cons_self _ _)
    have hpx := hprint x (List.mem_cons_self _ _)
    unfold SourceEntry.getLogEntries at hx hpx
    obtain ⟨first, more, hfm⟩ := List.exists_cons_of_ne_nil hx
    have hty : x.getSourceType = some first.source.type := by
      simp [SourceEntry.getSourceType, hfm]
    have hsid : x.getSourceId = some first.source.id := by
      simp [SourceEntry.getSourceId, hfm]
    unfold onSourceEntriesUpdated
    rw [hv]
    simp only []
    unfold onSourceEntryUpdated initProxyResolverIds
    simp only [hty, hsid, List.filterMap_cons, Option.some.injEq]
    by_cases hinit : first.source.type = globals.INIT_PROXY_RESOLVER
    · simp only [hinit, ne_eq, not_true_eq_false, if_false, if_true, List.foldr_cons]
      have hid2 : view.latestProxySourceId_ =
          List.foldr max self.latestProxySourceId_ (initProxyResolverIds globals rest) := hid
      unfold initProxyResolverIds at hid2
      by_cases hgt : view.latestProxySourceId_ > first.source.id
      · rw [if_pos hgt]
        refine ⟨view, rfl, ?_⟩
        rw [← hid2]
        exact (max_eq_right (le_of_lt hgt)).symm
      · rw [if_neg hgt]
        simp only [SourceEntry.printAsText, hpx, if_true]
        refine ⟨_, rfl, ?_⟩
        rw [← hid2]
        simp only []
        exact (max_eq_left (not_lt.mp hgt)).symm
    · simp only [ne_eq, hinit, not_false_eq_true, if_true, if_false]
      exact ⟨view, rfl, hid⟩

/-- Instance of the id part: the entries with ids 9 and 5, starting from 0,
leave the id 9. -/
theorem onSourceEntriesUpdated_latest_id_example :
    ∃ view, onSourceEntriesUpdated printingGlobals exampleView
        [proxyResolverEntry 9, proxyResolverEntry 5] = .returned view ∧
      view.latestProxySourceId_ =
        (initProxyResolverIds printingGlobals
          [proxyResolverEntry 9, proxyResolverEntry 5]).foldr max
          exampleView.latestProxySourceId_ :=
  onSourceEntriesUpdated_latest_id printingGlobals exampleView
    [proxyResolverEntry 9, proxyResolverEntry 5] (by decide) (by decide)

end ProxyView

end NetInternals

/-! ## addCommas -/

namespace Plotter

/-! ### Splitting at the decimal point -/

theorem splitDot_of_no_dot (s : List Char) (h : '.' ∉ s) : splitDot s = [s] := by
  induction s with
  | nil => rfl
  | cons c cs ih =>
    have hc : c ≠ '.' := fun hc => h (by simp [hc])
    have hcs : '.' ∉ cs := fun hm => h (List.mem_cons_of_mem _ hm)
    simp [splitDot, hc, ih hcs]

theorem splitDot_append_dot (s rest : List Char) (h : '.' ∉ s) :
    splitDot (s ++ '.' :: rest) = s :: splitDot rest := by
  induction s with
  | nil => simp [splitDot]
  | cons c cs ih =>
    have hc : c ≠ '.' := fun hc => h (by simp [hc])
    have hcs : '.' ∉ cs := fun hm => h (List.mem_cons_of_mem _ hm)
    simp [splitDot, hc, ih hcs]

/-! ### The regular expression on a run of digits -/

theorem takeWhile_digits_append (ds t : List Char) (hd : ∀ c ∈ ds, c.isDigit = true)
    (ht : ∀ c ∈ t.head?, c.isDigit = false) :
    (ds ++ t).takeWhile Char.isDigit = ds ∧ (ds ++ t).dropWhile Char.isDigit = t := by
  induction ds with
  | nil =>
    cases t with
    | nil => simp
    | cons c cs =>
      have : c.isDigit = false := ht c (by simp)
      simp [List.takeWhile, List.dropWhile, this]
  | cons d ds ih =>
    have hd0 : d.isDigit = true := hd d (by simp)
    have ih2 := ih (fun c hc => hd c (List.mem_cons_of_mem _ hc))
    simp [List.takeWhile, List.dropWhile, hd0, ih2.1, ih2.2]

theorem execThreeDigits_short (ds t : List Char) (hd : ∀ c ∈ ds, c.isDigit = true)
    (hlen : ds.length < 4) (ht : NoMatchAfter t) : execThreeDigits (ds ++ t) = none := by
  induction ds with
  | nil => exact ht.2
  | cons d ds ih =>
    have hd2 : ∀ c ∈ ds, c.isDigit = true := fun c hc => hd c (List.mem_cons_of_mem _ hc)
    have htw := (takeWhile_digits_append (d :: ds) t hd ht.1).1
    simp only [List.cons_append] at htw ⊢
    unfold execThreeDigits
    have hm : matchThreeDigitsHere (d :: (ds ++ t)) = none := by
      unfold matchThreeDigitsHere
      simp only [htw]
      rw [if_neg (by omega)]
    rw [hm]
    simp only []
    rw [ih hd2 (by simp only [List.length_cons] at hlen; omega)]
    rfl

theorem execThreeDigits_long (ds t : List Char) (hd : ∀ c ∈ ds, c.isDigit = true)
    (hlen : 4 ≤ ds.length) (ht : ∀ c ∈ t.head?, c.isDigit = false) :
    execThreeDigits (ds ++ t) =
      some ([], ds.take (ds.length - 3), ds.drop (ds.length - 3), t) := by
  cases ds with
  | nil => simp at hlen
  | cons d ds =>
    have htw := takeWhile_digits_append (d :: ds) t hd ht
    simp only [List.cons_append] at htw ⊢
    unfold execThreeDigits
    have hm : matchThreeDigitsHere (d :: (ds ++ t)) =
        some ((d :: ds).take ((d :: ds).length - 3), (d :: ds).drop ((d :: ds).length - 3),
          t) := by
      unfold matchThreeDigitsHere
      simp only [htw.1, htw.2]
      rw [if_pos hlen]
    rw [hm]

theorem noMatchAfter_comma_group (ds t : List Char) (hd : ∀ c ∈ ds, c.isDigit = true)
    (hlen : ds.length < 4) (ht : NoMatchAfter t) : NoMatchAfter (',' :: (ds ++ t)) := by
  refine ⟨by simp, ?_⟩
  unfold execThreeDigits
  have hm : matchThreeDigitsHere (',' :: (ds ++ t)) = none := by
    unfold matchThreeDigitsHere
    have : (',' : Char).isDigit = false := by decide
    simp [List.takeWhile, this]
  rw [hm]
  simp only []
  rw [execThreeDigits_short ds t hd hlen ht]
  rfl

/-! ### The grouping of the spec -/

theorem groupFromRight_short (ds : List Char) (h : ds.length < 4) : groupFromRight ds = ds := by
  match ds with
  | [] => rfl
  | [_] => rfl
  | [_, _] => rfl
  | [_, _, _] => rfl
  | _ :: _ :: _ :: _ :: _ =>
    simp only [List.length_cons] at h
    omega

theorem groupThousands_short (ds : List Char) (h : ds.length < 4) : groupThousands ds = ds := by
  unfold groupThousands
  rw [groupFromRight_short _ (by simpa using h), List.reverse_reverse]

theorem groupFromRight_three (a b c : Char) (rest : List Char) (h : rest ≠ []) :
    groupFromRight (a :: b :: c :: rest) = a :: b :: c :: ',' :: groupFromRight rest := by
  cases rest with
  | nil => exact absurd rfl h
  | cons d rest => rfl

theorem groupThousands_long (ds : List Char) (h : 4 ≤ ds.length) :
    groupThousands ds =
      groupThousands (ds.take (ds.length - 3)) ++ ',' :: ds.drop (ds.length - 3) := by
  unfold groupThousands
  have hsplit : ds = ds.take (ds.length - 3) ++ ds.drop (ds.length - 3) :=
    (List.take_append_drop _ _).symm
  generalize hA : ds.take (ds.length - 3) = A at hsplit ⊢
  generalize hB : ds.drop (ds.length - 3) = B at hsplit ⊢
  have hBlen : B.length = 3 := by
    rw [← hB, List.length_drop]
    omega
  have hAne : A ≠ [] := by
    intro hn
    have : A.length = ds.length - 3 := by rw [← hA, List.length_take]; omega
    rw [hn] at this
    simp at this
    omega
  match B, hBlen with
  | [x, y, z], _ =>
    rw [hsplit]
    have hrev : (A ++ [x, y, z]).reverse = z :: y :: x :: A.reverse := by simp
    rw [hrev, groupFromRight_three z y x A.reverse (by simpa using hAne)]
    simp

/-! ### The loop -/

theorem addCommasLoop_digits (fuel : Nat) :
    ∀ (ds t : List Char), (∀ c ∈ ds, c.isDigit = true) → NoMatchAfter t →
      ds.length ≤ fuel → addCommasLoop fuel (ds ++ t) = groupThousands ds ++ t := by
  induction fuel with
  | zero =>
    intro ds t _ _ hlen
    have : ds = [] := List.eq_nil_of_length_eq_zero (by omega)
    subst this
    rfl
  | succ fuel ih =>
    intro ds t hd ht hlen
    unfold addCommasLoop
    by_cases h4 : ds.length < 4
    · rw [execThreeDigits_short ds t hd h4 ht, groupThousands_short ds h4]
      rfl
    · have h4 : 4 ≤ ds.length := by omega
      have hex := execThreeDigits_long ds t hd h4 ht.1
      have hrep : replaceThreeDigits (ds ++ t) =
          ds.take (ds.length - 3) ++ (',' :: (ds.drop (ds.length - 3) ++ t)) := by
        unfold replaceThreeDigits
        rw [hex]
        simp
      rw [hex, hrep]
      simp only [Option.isSome_some, if_true]
      have hdrop : ∀ c ∈ ds.drop (ds.length - 3), c.isDigit = true :=
        fun c hc => hd c (List.mem_of_mem_drop hc)
      have htake : ∀ c ∈ ds.take (ds.length - 3), c.isDigit = true :=
        fun c hc => hd c (List.mem_of_mem_take hc)
      rw [ih _ _ htake
        (noMatchAfter_comma_group _ t hdrop (by rw [List.length_drop]; omega) ht)
        (by rw [List.length_take]; omega),
        groupThousands_long ds h4]
      simp

theorem noMatchAfter_nil : NoMatchAfter [] := ⟨by simp, rfl⟩

theorem not_mem_dot_of_digits (ds : List Char) (hd : ∀ c ∈ ds, c.isDigit = true) :
    '.' ∉ ds := by
  intro h
  have := hd _ h
  exact absurd this (by decide)

/-- Claim C19.  For an input whose string form is a run of decimal digits,
optionally followed by a point and a fractional part, `addCommas` returns the
integral digits with a comma between every group of three digits counted from
the right, followed by the point and the fractional part unchanged; the loop
ends by itself within the iterations allowed for it, and more iterations do not
change the result. -/
theorem addCommas_digits (digits fractional : List Char)
    (hd : ∀ c ∈ digits, c.isDigit = true) (hf : '.' ∉ fractional) :
    addCommas (String.mk digits) = String.mk (groupThousands digits) ∧
    addCommas (String.mk (digits ++ '.' :: fractional)) =
      String.mk (groupThousands digits ++ '.' :: fractional) ∧
    ∀ fuel, digits.length ≤ fuel → addCommasLoop fuel digits = groupThousands digits := by
  have hnd := not_mem_dot_of_digits digits hd
  have hloop : ∀ fuel, digits.length ≤ fuel →
      addCommasLoop fuel digits = groupThousands digits := by
    intro fuel hfuel
    have := addCommasLoop_digits fuel digits [] hd noMatchAfter_nil hfuel
    simpa using this
  have hto : ∀ l : List Char, (String.mk l).toList = l := fun _ => rfl
  refine ⟨?_, ?_, hloop⟩
  · unfold addCommas
    simp only [hto, splitDot_of_no_dot digits hnd, List.headD_cons, List.length_singleton]
    rw [hloop _ (le_refl _)]
    simp
  · unfold addCommas
    simp only [hto, splitDot_append_dot digits fractional hnd,
      splitDot_of_no_dot fractional hf, List.headD_cons]
    rw [hloop _ (le_refl _)]
    simp

/-- The grouping of the spec on seven digits, and `addCommas` on inputs outside
the claim: a sign is kept in front, and a second point drops what follows it. -/
theorem addCommas_examples :
    groupThousands "1234567".toList = "1,234,567".toList ∧
    addCommas "1234567.891" = "1,234,567.891" ∧
    addCommas "-1234" = "-1,234" ∧
    addCommas "1.2.3" = "1.2" := by
  decide

/-- Instance of C19: the two examples of the documentation of `addCommas`. -/
theorem addCommas_digits_witness :
    addCommas "1234.56" = "1,234.56" ∧ addCommas "99999" = "99,999" :=
  ⟨(addCommas_digits ['1', '2', '3', '4'] ['5', '6'] (by decide) (by decide)).2.1,
    (addCommas_digits ['9', '9', '9', '9', '9'] [] (by decide) (by decide)).1⟩

end Plotter

/-! ## updateCursor_ -/

namespace Plotter

/-- Claim C27, the failing input.  For the line with the points (0, 5) and
(50, 7), `currentIndex` 1 (the last point), `xPixel(x) = 2 x` and a page without
a global `left_point`, `updateCursor_` raises a `ReferenceError`: the left
position is set to 70, the width is not set and keeps its value "0px". -/
theorem updateCursor_raises_at_last_point :
    updateCursor_ { left_point := none } examplePlotter (fun x => 2 * x) 1
        exampleCursorStyle 0 =
      .referenceError
        { top := .px 10, height := .px 300, left := .number 70, width := .px 0 } := by
  simp [updateCursor_, cursorLeftPoint, examplePlotter, exampleCursorStyle]
  norm_num

/-- At the last point of a line `updateCursor_` never uses the left point that
it computed: without a global `left_point` it raises and leaves the width as it
was, and with a global `left_point` the width is the x value of the current
point minus that global. -/
theorem updateCursor_last_point (globals : CursorGlobals) (self : PlotterFields)
    (xPixel : ℚ → ℚ) (currentIndex : Nat) (cursorDiv : CursorStyle) (dataIndex : Nat)
    (dataLine : List (ℚ × ℚ)) (current : ℚ × ℚ)
    (hline : self.plotData_[dataIndex]? = some dataLine)
    (hcur : dataLine[currentIndex]? = some current)
    (hlast : currentIndex + 1 = dataLine.length) :
    (globals.left_point = none →
      ∃ style, updateCursor_ globals self xPixel currentIndex cursorDiv dataIndex =
          .referenceError style ∧ style.width = cursorDiv.width) ∧
    (∀ g, globals.left_point = some g →
      (updateCursor_ globals self xPixel currentIndex cursorDiv dataIndex).style.width =
        .number (self.canvasElement_.offsetLeft + xPixel current.1 - g)) := by
  have hleft : ∃ leftPoint,
      cursorLeftPoint self.canvasElement_.offsetLeft xPixel dataLine currentIndex =
        some leftPoint := by
    unfold cursorLeftPoint
    by_cases h0 : currentIndex = 0
    · subst h0
      rw [if_pos rfl, hcur]
      exact ⟨_, rfl⟩
    · rw [if_neg h0]
      have hprev : currentIndex - 1 < dataLine.length := by omega
      rw [List.getElem?_eq_getElem hprev, hcur]
      exact ⟨_, rfl⟩
  obtain ⟨leftPoint, hlp⟩ := hleft
  constructor
  · intro hg
    refine ⟨{ cursorDiv with
        top := .px self.canvasElement_.offsetTop
        height := .px self.canvasElement_.offsetHeight
        left := .number leftPoint }, ?_, rfl⟩
    unfold updateCursor_
    simp only [hline, hlp, hlast, if_true, hcur, hg]
  · intro g hg
    unfold updateCursor_
    simp only [hline, hlp, hlast, if_true, hcur, hg, CursorOutcome.style]

end Plotter

/-! ## rebuildAppList -/

namespace AppsDevTool

theorem pushItem_lists (s : Lists) (item : Item) :
    (pushItem s item).completeList = s.completeList ∧
    (pushItem s item).packedAppList =
      s.packedAppList ++ [item].filter (fun i => i.isApp && !i.is_unpacked) ∧
    (pushItem s item).unpackedAppList =
      s.unpackedAppList ++ [item].filter (fun i => i.isApp && i.is_unpacked) ∧
    (pushItem s item).packedExtensionList =
      s.packedExtensionList ++ [item].filter (fun i => !i.isApp && !i.is_unpacked) ∧
    (pushItem s item).unpackedExtensionList =
      s.unpackedExtensionList ++ [item].filter (fun i => !i.isApp && i.is_unpacked) := by
  unfold pushItem
  cases h1 : item.isApp <;> cases h2 : item.is_unpacked <;> simp [h1, h2]

theorem skipsItem_eq (js : StringMethods) (filter : String) (item : Item) :
    (skipsItem js filter item = some false → passesFilter js filter item = true) ∧
    (skipsItem js filter item = some true → passesFilter js filter item = false) ∧
    (skipsItem js filter item = none →
      ∀ other : Item, passesFilter js filter other = false) := by
  unfold skipsItem passesFilter
  by_cases hf : filter = ""
  · simp [hf]
  · cases hr : js.isRegExp (js.toLowerCase filter) <;> simp [hf, hr]

theorem rebuildAppListLoop_lists (js : StringMethods) (filter : String)
    (items : List Item) :
    ∀ s : Lists,
      (rebuildAppListLoop js filter items s).state.completeList = s.completeList ∧
      (rebuildAppListLoop js filter items s).state.packedAppList =
        s.packedAppList ++ items.filter
          (fun i => passesFilter js filter i && (i.isApp && !i.is_unpacked)) ∧
      (rebuildAppListLoop js filter items s).state.unpackedAppList =
        s.unpackedAppList ++ items.filter
          (fun i => passesFilter js filter i && (i.isApp && i.is_unpacked)) ∧
      (rebuildAppListLoop js filter items s).state.packedExtensionList =
        s.packedExtensionList ++ items.filter
          (fun i => passesFilter js filter i && (!i.isApp && !i.is_unpacked)) ∧
      (rebuildAppListLoop js filter items s).state.unpackedExtensionList =
        s.unpackedExtensionList ++ items.filter
          (fun i => passesFilter js filter i && (!i.isApp && i.is_unpacked)) := by
  induction items with
  | nil => intro s; simp [rebuildAppListLoop, Outcome.state]
  | cons item rest ih =>
    intro s
    have hsk := skipsItem_eq js filter item
    unfold rebuildAppListLoop
    cases h : skipsItem js filter item with
    | none =>
      have hall := hsk.2.2 h
      have hnil : ∀ q : Item → Bool,
          (item :: rest).filter (fun i => passesFilter js filter i && q i) = [] := by
        intro q
        rw [List.filter_eq_nil_iff]
        intro a _
        simp [hall a]
      simp [Outcome.state, hnil]
    | some b =>
      cases b with
      | true =>
        have hp := hsk.2.1 h
        simp only []
        obtain ⟨i1, i2, i3, i4, i5⟩ := ih s
        refine ⟨i1, ?_, ?_, ?_, ?_⟩
        · rw [i2]; simp [List.filter_cons, hp]
        · rw [i3]; simp [List.filter_cons, hp]
        · rw [i4]; simp [List.filter_cons, hp]
        · rw [i5]; simp [List.filter_cons, hp]
      | false =>
        have hp := hsk.1 h
        simp only []
        obtain ⟨i1, i2, i3, i4, i5⟩ := ih (pushItem s item)
        obtain ⟨p1, p2, p3, p4, p5⟩ := pushItem_lists s item
        refine ⟨by rw [i1, p1], ?_, ?_, ?_, ?_⟩
        · rw [i2, p2]
          cases h1 : item.isApp <;> cases h2 : item.is_unpacked <;>
            simp [List.filter_cons, hp, h1, h2]
        · rw [i3, p3]
          cases h1 : item.isApp <;> cases h2 : item.is_unpacked <;>
            simp [List.filter_cons, hp, h1, h2]
        · rw [i4, p4]
          cases h1 : item.isApp <;> cases h2 : item.is_unpacked <;>
            simp [List.filter_cons, hp, h1, h2]
        · rw [i5, p5]
          cases h1 : item.isApp <;> cases h2 : item.is_unpacked <;>
            simp [List.filter_cons, hp, h1, h2]

/-- Claim C21.  After `rebuildAppList(filter)` each of the four lists is
`completeList` restricted, in the order of `completeList`, to the items that
pass the filter and have the flags of that list: `isApp` and not `is_unpacked`
for `packedAppList`, `isApp` and `is_unpacked` for `unpackedAppList`, not
`isApp` and not `is_unpacked` for `packedExtensionList`, not `isApp` and
`is_unpacked` for `unpackedExtensionList`.  So an item that passes occurs in
exactly the list of its flags and an item that fails occurs in none. -/
theorem rebuildAppList_partition (js : StringMethods) (s : Lists) (filter : String) :
    (rebuildAppList js s filter).state.completeList = s.completeList ∧
    (rebuildAppList js s filter).state.packedAppList =
      s.completeList.filter
        (fun i => passesFilter js filter i && (i.isApp && !i.is_unpacked)) ∧
    (rebuildAppList js s filter).state.unpackedAppList =
      s.completeList.filter
        (fun i => passesFilter js filter i && (i.isApp && i.is_unpacked)) ∧
    (rebuildAppList js s filter).state.packedExtensionList =
      s.completeList.filter
        (fun i => passesFilter js filter i && (!i.isApp && !i.is_unpacked)) ∧
    (rebuildAppList js s filter).state.unpackedExtensionList =
      s.completeList.filter
        (fun i => passesFilter js filter i && (!i.isApp && i.is_unpacked)) ∧
    (filter = "" → ∀ i, passesFilter js filter i = true) := by
  unfold rebuildAppList
  have h := rebuildAppListLoop_lists js filter s.completeList
    { s with
      packedAppList := []
      unpackedAppList := []
      packedExtensionList := []
      unpackedExtensionList := [] }
  simp only [List.nil_append] at h
  refine ⟨h.1, h.2.1, h.2.2.1, h.2.2.2.1, h.2.2.2.2, ?_⟩
  intro hf i
  simp [passesFilter, hf]

/-- Instance of C21: the example lists with the empty filter and with the
filter "calc". -/
theorem rebuildAppList_partition_witness :
    (rebuildAppList exampleStringMethods exampleLists "").state.packedAppList =
      [{ name := "Calc", isApp := true, is_unpacked := false }] ∧
    (rebuildAppList exampleStringMethods exampleLists "").state.unpackedExtensionList =
      [{ name := "Dev", isApp := false, is_unpacked := true }] ∧
    (rebuildAppList exampleStringMethods exampleLists "calc").state.unpackedExtensionList =
      exampleLists.completeList.filter
        (fun i => passesFilter exampleStringMethods "calc" i &&
          (!i.isApp && i.is_unpacked)) :=
  ⟨by decide, by decide,
    (rebuildAppList_partition exampleStringMethods exampleLists "calc").2.2.2.2.1⟩

end AppsDevTool

/-! ## HostIt2MeDispatcher: the fallback to the plugin -/

namespace Remoting

/-- Claim C22, the failing input.  Native messaging fails to start, the plugin
has the property `REQUESTED_ACCESS_CODE` and the page has no global
`onNatTraversalPolicyChanged`: `initAndConnect` raises a `ReferenceError` after
`onStateChanged` is set; `onNatTraversalPolicyChanged` of the plugin is not set
and `connect` is not called. -/
theorem initAndConnect_plugin_raises :
    (initAndConnect exampleGlobals exampleDispatcher exampleArguments .failed).raised = true ∧
    ((initAndConnect exampleGlobals exampleDispatcher exampleArguments .failed).state.npapiHost_.map
      (fun p => p.onStateChanged)) = some (some exampleArguments.onStateChanged) ∧
    ((initAndConnect exampleGlobals exampleDispatcher exampleArguments .failed).state.npapiHost_.map
      (fun p => p.onNatTraversalPolicyChanged)) = some none ∧
    ((initAndConnect exampleGlobals exampleDispatcher exampleArguments .failed).state.npapiHost_.map
      (fun p => p.connectCalls)) = some [] := by
  decide

/-- With the property present, `onNatTraversalPolicyChanged` of the plugin is
never taken from the argument `onNatPolicyChanged`: it is the value of the
global of that name, or it stays as the plugin had it when there is no such
global. -/
theorem onNativeMessagingFailed_nat_policy (globals : Globals) (self : HostIt2MeDispatcher)
    (args : ConnectArguments) (h : args.createPluginCallback.hasRequestedAccessCode = true) :
    ∃ p, (onNativeMessagingFailed globals self args).state.npapiHost_ = some p ∧
      p.onStateChanged = some args.onStateChanged ∧
      p.onNatTraversalPolicyChanged =
        (match globals.onNatTraversalPolicyChanged with
          | some g => some g
          | none => args.createPluginCallback.onNatTraversalPolicyChanged) ∧
      (globals.onNatTraversalPolicyChanged = none ∨ globals.logDebugInfo = none →
        (onNativeMessagingFailed globals self args).raised = true ∧
        p.connectCalls = args.createPluginCallback.connectCalls) := by
  unfold onNativeMessagingFailed
  simp only [h, if_true]
  cases hg : globals.onNatTraversalPolicyChanged with
  | none => exact ⟨_, rfl, rfl, rfl, fun _ => ⟨rfl, rfl⟩⟩
  | some g =>
    cases hl : globals.logDebugInfo with
    | none => exact ⟨_, rfl, rfl, rfl, fun _ => ⟨rfl, rfl⟩⟩
    | some l =>
      refine ⟨_, rfl, rfl, rfl, ?_⟩
      intro hc
      rcases hc with hc | hc <;> simp at hc

/-- When the plugin lacks the property, `onError` is invoked and `connect` is
not called. -/
theorem onNativeMessagingFailed_without_property (globals : Globals)
    (self : HostIt2MeDispatcher) (args : ConnectArguments)
    (h : args.createPluginCallback.hasRequestedAccessCode = false) :
    initAndConnect globals self args .failed =
      .returned
        { self with
          npapiHost_ := some args.createPluginCallback
          invoked := self.invoked ++ [args.onError] } := by
  simp [initAndConnect, onNativeMessagingFailed, h]

end Remoting
